import Mathlib

/-!
Verification development for the nebula KVT storage layer.

The definitions below are a shallow embedding of the C++ sources under
src/src/clients/storage/kvt/ :

* kvt_mem.h / kvt_mem.cpp        - the in-memory KV transaction engine
  (KVTMemManagerNoCC, KVTMemManagerSimple, KVTMemManagerOCC and the
  KVTWrapper::batch_execute default),
* KVTTransactionManager.h / .cpp - executeBatch and executeWithRetry,
* KVTKeyEncoder.cpp              - the textual graph-key codec,
* KVTStorageClient.cpp           - addEdges / deleteEdges / deleteVertices.

Modelling conventions:

* C++ std::string keys and values are Lean String; byte-wise string
  comparison is modelled by lexicographic comparison of the char values
  (charListLtB).  All keys appearing in the claims are ASCII.
* std::map is modelled as an association list kept sorted by the map's
  key order; insertion (alInsert) re-sorts, so iteration order of a map
  built from empty matches the C++ iteration order.  std::map::insert
  (which does NOT overwrite an existing key) is alInsertNew.
* make_table_key prefixes the user key with the 8-byte little-endian
  table id.  We model the composite key as the pair (table_id, key)
  ordered lexicographically; this matches the byte-wise order of the
  C++ composite strings for table ids below 256 (all states in this
  development use small ids).
* Entry.metadata is int32_t in C++ (lock owner for 2PL, version for
  OCC); we model it as Int (no claim exercises 2^31 overflow).
* lower_bound / upper_bound iteration over a sorted map is modelled by
  dropWhile / takeWhile on the sorted association list.
* unordered containers (transactions, table_to_id, delete_set) are
  association lists / lists; the code never depends on their iteration
  order in a way visible to the claims.
-/

set_option maxRecDepth 4000

namespace KVT

/-- KVTError from kvt_mem.h. -/
inductive KVTError where
  | SUCCESS
  | KVT_NOT_INITIALIZED
  | TABLE_ALREADY_EXISTS
  | TABLE_NOT_FOUND
  | INVALID_PARTITION_METHOD
  | TRANSACTION_NOT_FOUND
  | TRANSACTION_ALREADY_RUNNING
  | KEY_NOT_FOUND
  | KEY_IS_DELETED
  | KEY_IS_LOCKED
  | TRANSACTION_HAS_STALE_DATA
  | ONE_SHOT_WRITE_NOT_ALLOWED
  | ONE_SHOT_DELETE_NOT_ALLOWED
  | BATCH_NOT_FULLY_SUCCESS
  | UNKNOWN_ERROR
deriving DecidableEq, Repr

/-- Byte-wise (char-value) lexicographic comparison of char lists,
modelling C++ std::string operator<. -/
def charListLtB : List Char → List Char → Bool
  | [], [] => false
  | [], _ :: _ => true
  | _ :: _, [] => false
  | a :: as, b :: bs =>
      if a.toNat < b.toNat then true
      else if b.toNat < a.toNat then false
      else charListLtB as bs

/-- C++ std::string operator< on Lean strings. -/
def strLtB (a b : String) : Bool := charListLtB a.data b.data

/-- Composite key (table_id, user key): models make_table_key, which
prepends the 8-byte little-endian table id to the key. -/
abbrev TKey := Nat × String

/-- Order of composite keys: matches byte-wise order of the C++
composite strings for table ids < 256. -/
def tkeyLtB (a b : TKey) : Bool :=
  decide (a.1 < b.1) || (decide (a.1 = b.1) && strLtB a.2 b.2)

/-- make_table_key from kvt_mem.h (composite key as a pair). -/
def makeTableKey (table_id : Nat) (key : String) : TKey := (table_id, key)

/-- parse_table_key from kvt_mem.h. -/
def parseTableKey (k : TKey) : Nat × String := k

/-- First-match association-list lookup (std::map::find /
unordered_map::find). -/
def alFind {κ α : Type} [DecidableEq κ] (l : List (κ × α)) (k : κ) : Option α :=
  match l with
  | [] => none
  | (k2, v) :: rest => if k = k2 then some v else alFind rest k

/-- Sorted insert-or-assign (std::map operator[] =). -/
def alInsert {κ α : Type} [DecidableEq κ] (ltB : κ → κ → Bool) (k : κ) (v : α) :
    List (κ × α) → List (κ × α)
  | [] => [(k, v)]
  | (k2, v2) :: rest =>
      if k = k2 then (k, v) :: rest
      else if ltB k k2 then (k, v) :: (k2, v2) :: rest
      else (k2, v2) :: alInsert ltB k v rest

/-- Sorted insert that keeps an existing key untouched
(std::map::insert semantics). -/
def alInsertNew {κ α : Type} [DecidableEq κ] (ltB : κ → κ → Bool) (k : κ) (v : α) :
    List (κ × α) → List (κ × α)
  | [] => [(k, v)]
  | (k2, v2) :: rest =>
      if k = k2 then (k2, v2) :: rest
      else if ltB k k2 then (k, v) :: (k2, v2) :: rest
      else (k2, v2) :: alInsertNew ltB k v rest

/-- Erase a key (std::map::erase by key; no-op when absent). -/
def alErase {κ α : Type} [DecidableEq κ] (k : κ) : List (κ × α) → List (κ × α)
  | [] => []
  | (k2, v2) :: rest => if k = k2 then rest else (k2, v2) :: alErase k rest

/-- In-place update of the value stored at a key (mutation through an
iterator / pointer in C++). -/
def alUpdate {κ α : Type} [DecidableEq κ] (k : κ) (f : α → α) : List (κ × α) → List (κ × α)
  | [] => []
  | (k2, v2) :: rest => if k = k2 then (k2, f v2) :: rest else (k2, v2) :: alUpdate k f rest

/-- Entry from kvt_mem.h (KVTMemManagerBase): payload plus the
metadata field (version counter under OCC). -/
structure Entry where
  data : String
  metadata : Int
deriving DecidableEq, Repr

/-- Table from kvt_mem.h (KVTMemManagerBase). -/
structure Table where
  id : Nat
  name : String
  partition_method : String
  data : List (String × Entry)
deriving DecidableEq, Repr

/-- Transaction from kvt_mem.h (KVTMemManagerBase): read/write/delete
sets keyed by composite key. -/
structure Txn where
  tx_id : Nat
  read_set : List (TKey × Entry)
  write_set : List (TKey × Entry)
  delete_set : List TKey
deriving DecidableEq, Repr

/-- State of a KVTMemManagerBase-derived manager (used for OCC). -/
structure OCCState where
  tables : List (String × Table)
  transactions : List (Nat × Txn)
  tablename_to_id : List (String × Nat)
  next_table_id : Nat
  next_tx_id : Nat
deriving DecidableEq, Repr

/-- get_table_by_id: walk tablename_to_id looking for the id, return
the table stored under the first matching name. -/
def getTableEntryById (tables : List (String × Table)) :
    List (String × Nat) → Nat → Option (String × Table)
  | [], _ => none
  | (nm, id2) :: rest, tid =>
      if id2 = tid then
        match alFind tables nm with
        | some t => some (nm, t)
        | none => getTableEntryById tables rest tid
      else getTableEntryById tables rest tid

def getTableById (s : OCCState) (table_id : Nat) : Option Table :=
  (getTableEntryById s.tables s.tablename_to_id table_id).map Prod.snd

/-- Mutate the table found by get_table_by_id (C++ mutates through the
Table pointer). -/
def updateTableById (s : OCCState) (table_id : Nat) (f : Table → Table) : OCCState :=
  match getTableEntryById s.tables s.tablename_to_id table_id with
  | none => s
  | some (nm, _) => { s with tables := alUpdate nm f s.tables }

def getTxn (s : OCCState) (tx_id : Nat) : Option Txn := alFind s.transactions tx_id

def updateTxn (s : OCCState) (tx_id : Nat) (f : Txn → Txn) : OCCState :=
  { s with transactions := alUpdate tx_id f s.transactions }

def eraseTxn (s : OCCState) (tx_id : Nat) : OCCState :=
  { s with transactions := alErase tx_id s.transactions }

/-- Nat order for the transactions association list (iteration order of
the unordered_map is never observed). -/
def natLtB (a b : Nat) : Bool := decide (a < b)

/-- unordered_set::insert. -/
def setInsert (k : TKey) (l : List TKey) : List TKey := if k ∈ l then l else k :: l

/-- KVTMemManagerBase::start_transaction. -/
def occStart (s : OCCState) : Nat × OCCState :=
  let tx := s.next_tx_id
  (tx, { s with
          transactions := alInsert natLtB tx (Txn.mk tx [] [] []) s.transactions,
          next_tx_id := s.next_tx_id + 1 })

/-- KVTMemManagerOCC::get (kvt_mem.cpp:1180-1229). -/
def occGet (s : OCCState) (tx_id table_id : Nat) (key : String) :
    KVTError × Option String × OCCState :=
  if tx_id = 0 then
    match getTableById s table_id with
    | none => (KVTError.TABLE_NOT_FOUND, none, s)
    | some t =>
      match alFind t.data key with
      | none => (KVTError.KEY_NOT_FOUND, none, s)
      | some e => (KVTError.SUCCESS, some e.data, s)
  else
    match getTxn s tx_id with
    | none => (KVTError.TRANSACTION_NOT_FOUND, none, s)
    | some tx =>
      let table_key := makeTableKey table_id key
      match alFind tx.write_set table_key with
      | some e => (KVTError.SUCCESS, some e.data, s)
      | none =>
        if table_key ∈ tx.delete_set then (KVTError.KEY_IS_DELETED, none, s)
        else
          match alFind tx.read_set table_key with
          | some e => (KVTError.SUCCESS, some e.data, s)
          | none =>
            match getTableById s table_id with
            | none => (KVTError.TABLE_NOT_FOUND, none, s)
            | some t =>
              match alFind t.data key with
              | none => (KVTError.KEY_NOT_FOUND, none, s)
              | some e =>
                (KVTError.SUCCESS, some e.data,
                  updateTxn s tx_id (fun tx2 =>
                    { tx2 with read_set := alInsert tkeyLtB table_key e tx2.read_set }))

/-- KVTMemManagerOCC::set (kvt_mem.cpp:1231-1261).  A one-shot set
(tx_id = 0) bumps the version in place; a transactional set stages into
the write set and clears a pending delete. -/
def occSet (s : OCCState) (tx_id table_id : Nat) (key value : String) :
    KVTError × OCCState :=
  if tx_id = 0 then
    match getTableById s table_id with
    | none => (KVTError.TABLE_NOT_FOUND, s)
    | some t =>
      match alFind t.data key with
      | none =>
        (KVTError.SUCCESS, updateTableById s table_id (fun t2 =>
          { t2 with data := alInsert strLtB key (Entry.mk value 1) t2.data }))
      | some old =>
        (KVTError.SUCCESS, updateTableById s table_id (fun t2 =>
          { t2 with data := alInsert strLtB key (Entry.mk value (old.metadata + 1)) t2.data }))
  else
    match getTxn s tx_id with
    | none => (KVTError.TRANSACTION_NOT_FOUND, s)
    | some _ =>
      let table_key := makeTableKey table_id key
      (KVTError.SUCCESS, updateTxn s tx_id (fun tx2 =>
        { tx2 with
            write_set := alInsert tkeyLtB table_key (Entry.mk value 0) tx2.write_set,
            delete_set := tx2.delete_set.filter (fun k => ¬ k = table_key) }))

/-- KVTMemManagerOCC::del (kvt_mem.cpp:1263-1305). -/
def occDel (s : OCCState) (tx_id table_id : Nat) (key : String) :
    KVTError × OCCState :=
  if tx_id = 0 then
    match getTableById s table_id with
    | none => (KVTError.TABLE_NOT_FOUND, s)
    | some t =>
      match alFind t.data key with
      | none => (KVTError.KEY_NOT_FOUND, s)
      | some _ =>
        (KVTError.SUCCESS, updateTableById s table_id (fun t2 =>
          { t2 with data := alErase key t2.data }))
  else
    match getTxn s tx_id with
    | none => (KVTError.TRANSACTION_NOT_FOUND, s)
    | some tx =>
      let table_key := makeTableKey table_id key
      match alFind tx.write_set table_key with
      | some _ =>
        (KVTError.SUCCESS, updateTxn s tx_id (fun tx2 =>
          { tx2 with
              write_set := alErase table_key tx2.write_set,
              delete_set := setInsert table_key tx2.delete_set }))
      | none =>
        match alFind tx.read_set table_key with
        | some _ =>
          (KVTError.SUCCESS, updateTxn s tx_id (fun tx2 =>
            { tx2 with delete_set := setInsert table_key tx2.delete_set }))
        | none =>
          match getTableById s table_id with
          | none => (KVTError.TABLE_NOT_FOUND, s)
          | some t =>
            match alFind t.data key with
            | none => (KVTError.KEY_NOT_FOUND, s)
            | some e =>
              (KVTError.SUCCESS, updateTxn s tx_id (fun tx2 =>
                { tx2 with
                    read_set := alInsert tkeyLtB table_key e tx2.read_set,
                    delete_set := setInsert table_key tx2.delete_set }))

/-- Commit-time validation of one read-set entry: the table entry must
still exist and its version must not have advanced past the observed
one (kvt_mem.cpp:1130-1143; the source asserts the table exists). -/
def readEntryOk (s : OCCState) (ck : TKey) (e : Entry) : Bool :=
  match getTableById s ck.1 with
  | none => false
  | some t =>
    match alFind t.data ck.2 with
    | none => false
    | some cur => decide (cur.metadata ≤ e.metadata)

def validateReadSet (s : OCCState) (rs : List (TKey × Entry)) : Bool :=
  rs.all (fun p => readEntryOk s p.1 p.2)

/-- One erase of the commit delete loop (kvt_mem.cpp:1145-1152). -/
def applyDeleteStep (st : OCCState) (ck : TKey) : OCCState :=
  updateTableById st ck.1 (fun t => { t with data := alErase ck.2 t.data })

/-- Commit installation of the delete set (kvt_mem.cpp:1145-1152). -/
def applyDeletes (s : OCCState) (ds : List TKey) : OCCState :=
  ds.foldl applyDeleteStep s

/-- The version installed for a written key: previous + 1, or 1 for a
fresh key (kvt_mem.cpp:1159). -/
def newVersionFor (t : Table) (k : String) : Int :=
  match alFind t.data k with
  | some old => old.metadata + 1
  | none => 1

/-- One install of the commit write loop (kvt_mem.cpp:1153-1162). -/
def applyWriteStep (st : OCCState) (p : TKey × Entry) : OCCState :=
  updateTableById st p.1.1 (fun t =>
    { t with data := alInsert strLtB p.1.2 (Entry.mk p.2.data (newVersionFor t p.1.2)) t.data })

/-- Commit installation of the write set (kvt_mem.cpp:1153-1162). -/
def applyWrites (s : OCCState) (ws : List (TKey × Entry)) : OCCState :=
  ws.foldl applyWriteStep s

/-- KVTMemManagerOCC::commit_transaction (kvt_mem.cpp:1120-1166).
Returns the error, the error message out-parameter, and the new
state. -/
def occCommit (s : OCCState) (tx_id : Nat) : KVTError × String × OCCState :=
  match getTxn s tx_id with
  | none =>
    (KVTError.TRANSACTION_NOT_FOUND,
      "Transaction " ++ toString tx_id ++ " not found", s)
  | some tx =>
    if validateReadSet s tx.read_set then
      let s1 := applyDeletes s tx.delete_set
      let s2 := applyWrites s1 tx.write_set
      (KVTError.SUCCESS, "", eraseTxn s2 tx_id)
    else
      (KVTError.TRANSACTION_HAS_STALE_DATA,
        "Transaction " ++ toString tx_id ++ " has stale data", eraseTxn s tx_id)

/-- KVTMemManagerOCC::rollback_transaction (kvt_mem.cpp:1168-1178). -/
def occRollback (s : OCCState) (tx_id : Nat) : KVTError × OCCState :=
  match getTxn s tx_id with
  | none => (KVTError.TRANSACTION_NOT_FOUND, s)
  | some _ => (KVTError.SUCCESS, eraseTxn s tx_id)

/-- One iteration chain of the one-shot OCC scan loop: push the pair,
then break once the result count reaches the limit
(kvt_mem.cpp:1318-1326). -/
def oneShotScanLoop (key_end : String) (limit : Nat) :
    List (String × Entry) → Nat → List (String × String)
  | [], _ => []
  | (k, e) :: rest, n =>
      if strLtB k key_end then
        (k, e.data) :: (if limit ≤ n + 1 then [] else oneShotScanLoop key_end limit rest (n + 1))
      else []

/-- results_writes loop of the transactional OCC scan
(kvt_mem.cpp:1332-1344): walk the write set from lower_bound, stop at
the composite end key, map-assign under the plain key, break once the
map size reaches the limit. -/
def occScanWritesLoop (tke : TKey) (limit : Nat) :
    List (TKey × Entry) → List (String × String) → List (String × String)
  | [], acc => acc
  | (ck, e) :: rest, acc =>
      if tkeyLtB ck tke then
        let acc2 := acc ++ [(ck.2, e.data)]
        if limit ≤ acc2.length then acc2 else occScanWritesLoop tke limit rest acc2
      else acc

/-- Table loop of the transactional OCC scan (kvt_mem.cpp:1345-1365):
skip keys already produced by the write set, skip deleted keys, record
first-seen keys in the read set, and stop once the collected map
reaches the limit. -/
def occScanTableLoop (table_id : Nat) (key_end : String) (limit : Nat)
    (rw : List (String × String)) :
    List (String × Entry) → Txn → List (String × String) →
    List (String × String) × Txn
  | [], tx, acc => (acc, tx)
  | (k, e) :: rest, tx, acc =>
      if strLtB k key_end then
        if (alFind rw k).isSome then occScanTableLoop table_id key_end limit rw rest tx acc
        else
          let tk := makeTableKey table_id k
          if tk ∈ tx.delete_set then occScanTableLoop table_id key_end limit rw rest tx acc
          else
            match alFind tx.read_set tk with
            | none =>
              let tx2 := { tx with read_set := alInsert tkeyLtB tk e tx.read_set }
              let acc2 := acc ++ [(k, e.data)]
              if limit ≤ acc2.length then (acc2, tx2)
              else occScanTableLoop table_id key_end limit rw rest tx2 acc2
            | some r =>
              let acc2 := acc ++ [(k, r.data)]
              if limit ≤ acc2.length then (acc2, tx)
              else occScanTableLoop table_id key_end limit rw rest tx acc2
      else (acc, tx)

/-- Merge of results_table and results_writes --
results_table.insert(results_writes.begin(), results_writes.end())
(kvt_mem.cpp:1367): repeated std::map::insert, which keeps the
results_table entry on an equal key. -/
def mergeStrMaps (rt rw : List (String × String)) : List (String × String) :=
  rw.foldl (fun m p => alInsertNew strLtB p.1 p.2 m) rt

/-- Final emission loop of the transactional OCC scan
(kvt_mem.cpp:1368-1373): push then break at the limit. -/
def pushLoop (limit : Nat) : List (String × String) → Nat → List (String × String)
  | [], _ => []
  | x :: rest, n =>
      x :: (if limit ≤ n + 1 then [] else pushLoop limit rest (n + 1))

/-- KVTMemManagerOCC::scan (kvt_mem.cpp:1308-1375). -/
def occScan (s : OCCState) (tx_id table_id : Nat) (key_start key_end : String)
    (limit : Nat) : KVTError × List (String × String) × OCCState :=
  match getTableById s table_id with
  | none => (KVTError.TABLE_NOT_FOUND, [], s)
  | some t =>
    if tx_id = 0 then
      (KVTError.SUCCESS,
        oneShotScanLoop key_end limit
          (t.data.dropWhile (fun p => strLtB p.1 key_start)) 0, s)
    else
      match getTxn s tx_id with
      | none => (KVTError.TRANSACTION_NOT_FOUND, [], s)
      | some tx =>
        let tks := makeTableKey table_id key_start
        let tke := makeTableKey table_id key_end
        let rw := occScanWritesLoop tke limit
          (tx.write_set.dropWhile (fun p => tkeyLtB p.1 tks)) []
        let (rt, tx2) := occScanTableLoop table_id key_end limit rw
          (t.data.dropWhile (fun p => strLtB p.1 key_start)) tx []
        let merged := mergeStrMaps rt rw
        (KVTError.SUCCESS, pushLoop limit merged 0,
          updateTxn s tx_id (fun _ => tx2))

/-- Batch operation kinds (kvt_mem.h / kvt_inc.h). -/
inductive KVTOpType where
  | OP_UNKNOWN
  | OP_GET
  | OP_SET
  | OP_DEL
deriving DecidableEq, Repr

structure KVTOp where
  op : KVTOpType
  table_id : Nat
  key : String
  value : String
deriving DecidableEq, Repr

/-- Per-op result; the value out-parameter stays empty unless a GET
succeeds. -/
structure KVTOpResult where
  error : KVTError
  value : String
deriving DecidableEq, Repr

/-- One dispatch step of KVTWrapper::batch_execute (kvt_mem.h:103-132)
over the OCC manager. -/
def occExecOp (s : OCCState) (tx_id : Nat) (op : KVTOp) : KVTOpResult × OCCState :=
  match op.op with
  | KVTOpType.OP_GET =>
      let r := occGet s tx_id op.table_id op.key
      (KVTOpResult.mk r.1 (r.2.1.getD ""), r.2.2)
  | KVTOpType.OP_SET =>
      let r := occSet s tx_id op.table_id op.key op.value
      (KVTOpResult.mk r.1 "", r.2)
  | KVTOpType.OP_DEL =>
      let r := occDel s tx_id op.table_id op.key
      (KVTOpResult.mk r.1 "", r.2)
  | KVTOpType.OP_UNKNOWN => (KVTOpResult.mk KVTError.UNKNOWN_ERROR "", s)

def occBatchGo (tx_id : Nat) : List KVTOp → OCCState → List KVTOpResult × OCCState
  | [], s => ([], s)
  | op :: rest, s =>
      let r := occExecOp s tx_id op
      let rr := occBatchGo tx_id rest r.2
      (r.1 :: rr.1, rr.2)

/-- KVTWrapper::batch_execute (kvt_mem.h:95-140): run the ops in input
order, collect per-op results, classify SUCCESS vs
BATCH_NOT_FULLY_SUCCESS. -/
def occBatchExecute (s : OCCState) (tx_id : Nat) (ops : List KVTOp) :
    KVTError × List KVTOpResult × OCCState :=
  let rr := occBatchGo tx_id ops s
  if rr.1.all (fun r => r.error = KVTError.SUCCESS) then
    (KVTError.SUCCESS, rr.1, rr.2)
  else
    (KVTError.BATCH_NOT_FULLY_SUCCESS, rr.1, rr.2)

/-- nebula Status, reduced to ok / error-with-message. -/
inductive KStatus where
  | ok
  | error (msg : String)
deriving DecidableEq, Repr

instance {ε α : Type} [DecidableEq ε] [DecidableEq α] : DecidableEq (Except ε α) :=
  fun a b =>
    match a, b with
    | Except.ok x, Except.ok y => decidable_of_iff (x = y) (by simp)
    | Except.error x, Except.error y => decidable_of_iff (x = y) (by simp)
    | Except.ok _, Except.error _ => isFalse (by simp)
    | Except.error _, Except.ok _ => isFalse (by simp)

/-- KVTTransactionManager::executeBatch (KVTTransactionManager.cpp:28-87).
With txId = 0 it begins a fresh transaction, commits when every op
succeeded and rolls back otherwise (returning the per-op results on a
partial failure); with txId ≠ 0 it runs against the caller's
transaction and never commits or rolls back. -/
def tmExecuteBatch (s : OCCState) (ops : List KVTOp) (txId : Nat) :
    (Except String (List KVTOpResult)) × OCCState :=
  if txId = 0 then
    let st := occStart s
    let be := occBatchExecute st.2 st.1 ops
    if be.1 = KVTError.SUCCESS then
      let c := occCommit be.2.2 st.1
      if c.1 = KVTError.SUCCESS then (Except.ok be.2.1, c.2.2)
      else (Except.error ("Failed to commit batch: " ++ c.2.1), (occRollback c.2.2 st.1).2)
    else
      let s3 := (occRollback be.2.2 st.1).2
      if be.1 = KVTError.BATCH_NOT_FULLY_SUCCESS then (Except.ok be.2.1, s3)
      else (Except.error "Batch execution failed", s3)
  else
    let be := occBatchExecute s txId ops
    if be.1 = KVTError.SUCCESS ∨ be.1 = KVTError.BATCH_NOT_FULLY_SUCCESS then
      (Except.ok be.2.1, be.2.2)
    else (Except.error "Batch execution error", be.2.2)

/-- Is the needle a prefix of the haystack (char lists)? -/
def listPrefixB : List Char → List Char → Bool
  | [], _ => true
  | _ :: _, [] => false
  | a :: as, b :: bs => decide (a = b) && listPrefixB as bs

def containsSubstrGo (needle : List Char) : List Char → Bool
  | [] => listPrefixB needle []
  | c :: rest => listPrefixB needle (c :: rest) || containsSubstrGo needle rest

/-- std::string::find(needle) != npos. -/
def containsSubstr (hay needle : String) : Bool :=
  containsSubstrGo needle.data hay.data

/-- Loop body of KVTTransactionManager::executeWithRetry
(KVTTransactionManager.h:197-241).  The fuel is maxRetries + 1 - attempt.
The returned Nat counts incrementRetries calls.  An uncommitted scoped
transaction is rolled back when the attempt ends (KVTTransaction RAII);
after a failed OCC commit the engine transaction is already gone, so
that rollback is a no-op. -/
def executeWithRetryGo (body : Nat → OCCState → KStatus × OCCState) (maxRetries : Nat) :
    Nat → Nat → OCCState → Nat → KStatus × OCCState × Nat
  | 0, _, s, retries => (KStatus.error "Max retries exceeded", s, retries)
  | fuel + 1, attempt, s, retries =>
      let (txId, s1) := occStart s
      let (st, s2) := body txId s1
      match st with
      | KStatus.error m => (KStatus.error m, (occRollback s2 txId).2, retries)
      | KStatus.ok =>
        let (cerr, cmsg, s3) := occCommit s2 txId
        if cerr = KVTError.SUCCESS then (KStatus.ok, s3, retries)
        else
          let m := "Failed to commit transaction: " ++ cmsg
          let s4 := (occRollback s3 txId).2
          if (containsSubstr m "STALE_DATA" || containsSubstr m "LOCKED")
              && decide (attempt < maxRetries) then
            executeWithRetryGo body maxRetries fuel (attempt + 1) s4 (retries + 1)
          else (KStatus.error m, s4, retries)

/-- KVTTransactionManager::executeWithRetry. -/
def executeWithRetry (s : OCCState) (body : Nat → OCCState → KStatus × OCCState)
    (maxRetries : Nat) : KStatus × OCCState × Nat :=
  executeWithRetryGo body maxRetries (maxRetries + 1) 0 s 0

/-- State of KVTMemManagerSimple (kvt_mem.h:208-276): a single
composite-keyed data map, one optional open transaction
(current_tx_id, 0 = none) with a write set and a delete set. -/
structure SimpleState where
  table_data : List (TKey × String)
  table_to_id : List (String × Nat)
  next_table_id : Nat
  next_tx_id : Nat
  current_tx_id : Nat
  write_set : List (TKey × String)
  delete_set : List TKey
deriving DecidableEq, Repr

/-- The loop over table_to_id checking that some table has this id. -/
def simpleTableExists (s : SimpleState) (table_id : Nat) : Bool :=
  s.table_to_id.any (fun p => decide (p.2 = table_id))

/-- KVTMemManagerSimple::start_transaction (kvt_mem.cpp:478-488). -/
def simpleStart (s : SimpleState) : KVTError × Nat × SimpleState :=
  if ¬ s.current_tx_id = 0 then (KVTError.TRANSACTION_ALREADY_RUNNING, 0, s)
  else
    (KVTError.SUCCESS, s.next_tx_id,
      { s with current_tx_id := s.next_tx_id, next_tx_id := s.next_tx_id + 1 })

/-- KVTMemManagerSimple::get (kvt_mem.cpp:525-566).  Note: the staged
write_set / delete_set are consulted before the table for every caller,
including a one-shot get (tx_id = 0). -/
def simpleGet (s : SimpleState) (tx_id table_id : Nat) (key : String) :
    KVTError × Option String :=
  if ¬ simpleTableExists s table_id then (KVTError.TABLE_NOT_FOUND, none)
  else if ¬ tx_id = 0 ∧ ¬ s.current_tx_id = tx_id then
    (KVTError.TRANSACTION_NOT_FOUND, none)
  else
    let table_key := makeTableKey table_id key
    match alFind s.write_set table_key with
    | some v => (KVTError.SUCCESS, some v)
    | none =>
      if table_key ∈ s.delete_set then (KVTError.KEY_IS_DELETED, none)
      else
        match alFind s.table_data table_key with
        | none => (KVTError.KEY_NOT_FOUND, none)
        | some v => (KVTError.SUCCESS, some v)

/-- KVTMemManagerSimple::set (kvt_mem.cpp:568-600). -/
def simpleSet (s : SimpleState) (tx_id table_id : Nat) (key value : String) :
    KVTError × SimpleState :=
  if ¬ simpleTableExists s table_id then (KVTError.TABLE_NOT_FOUND, s)
  else if ¬ s.current_tx_id = tx_id then (KVTError.TRANSACTION_NOT_FOUND, s)
  else
    let table_key := makeTableKey table_id key
    (KVTError.SUCCESS,
      { s with
          delete_set := s.delete_set.filter (fun k => ¬ k = table_key),
          write_set := alInsert tkeyLtB table_key value s.write_set })

/-- KVTMemManagerSimple::del (kvt_mem.cpp:602-640). -/
def simpleDel (s : SimpleState) (tx_id table_id : Nat) (key : String) :
    KVTError × SimpleState :=
  if ¬ simpleTableExists s table_id then (KVTError.TABLE_NOT_FOUND, s)
  else if ¬ s.current_tx_id = tx_id then (KVTError.TRANSACTION_NOT_FOUND, s)
  else
    let table_key := makeTableKey table_id key
    match alFind s.write_set table_key with
    | some _ => (KVTError.SUCCESS, { s with write_set := alErase table_key s.write_set })
    | none =>
      match alFind s.table_data table_key with
      | none => (KVTError.KEY_NOT_FOUND, s)
      | some _ => (KVTError.SUCCESS, { s with delete_set := setInsert table_key s.delete_set })

/-- KVTMemManagerSimple::commit_transaction (kvt_mem.cpp:490-511).
The write set is applied with table_data.insert(write_set.begin(),
write_set.end()) - std::map::insert, which does NOT overwrite keys
already present in the table - then the delete-set keys are erased and
the transaction is cleared. -/
def simpleCommit (s : SimpleState) (tx_id : Nat) : KVTError × SimpleState :=
  if ¬ s.current_tx_id = tx_id then (KVTError.TRANSACTION_NOT_FOUND, s)
  else
    let td1 := s.write_set.foldl (fun td p => alInsertNew tkeyLtB p.1 p.2 td) s.table_data
    let td2 := s.delete_set.foldl (fun td k => alErase k td) td1
    (KVTError.SUCCESS,
      { s with table_data := td2, write_set := [], delete_set := [], current_tx_id := 0 })

/-- KVTMemManagerSimple::rollback_transaction (kvt_mem.cpp:513-523). -/
def simpleRollback (s : SimpleState) (tx_id : Nat) : KVTError × SimpleState :=
  if ¬ s.current_tx_id = tx_id then (KVTError.TRANSACTION_NOT_FOUND, s)
  else
    (KVTError.SUCCESS, { s with write_set := [], delete_set := [], current_tx_id := 0 })

/-- KVTMemManagerSimple::scan (kvt_mem.cpp:642-686).  The range taken
from the map is [lower_bound(start), upper_bound(end)) - the end key
itself is therefore INCLUDED - the delete set is subtracted, the write
set range is layered with std::map::insert (no overwrite), and all of
result_map is emitted: num_item_limit is never consulted. -/
def simpleScan (s : SimpleState) (tx_id table_id : Nat) (key_start key_end : String)
    (_num_item_limit : Nat) : KVTError × List (String × String) :=
  if ¬ simpleTableExists s table_id then (KVTError.TABLE_NOT_FOUND, [])
  else if ¬ tx_id = 0 ∧ ¬ s.current_tx_id = tx_id then
    (KVTError.TRANSACTION_NOT_FOUND, [])
  else
    let tks := makeTableKey table_id key_start
    let tke := makeTableKey table_id key_end
    let base := (s.table_data.dropWhile (fun p => tkeyLtB p.1 tks)).takeWhile
      (fun p => ¬ tkeyLtB tke p.1)
    let m2 := s.delete_set.foldl (fun m k => alErase k m) base
    let wr := (s.write_set.dropWhile (fun p => tkeyLtB p.1 tks)).takeWhile
      (fun p => ¬ tkeyLtB tke p.1)
    let m3 := wr.foldl (fun m p => alInsertNew tkeyLtB p.1 p.2 m) m2
    (KVTError.SUCCESS, m3.map (fun p => (p.1.2, p.2)))

/-- State of KVTMemManagerNoCC (kvt_mem.h:144-206). -/
structure NoCCState where
  table_data : List (TKey × String)
  table_to_id : List (String × Nat)
  next_table_id : Nat
  next_tx_id : Nat
deriving DecidableEq, Repr

def noccTableExists (s : NoCCState) (table_id : Nat) : Bool :=
  s.table_to_id.any (fun p => decide (p.2 = table_id))

/-- KVTMemManagerNoCC::scan (kvt_mem.cpp:363-395).  The iteration runs
from lower_bound(start) to upper_bound(end) - so a key equal to the end
key is INCLUDED - collecting while the result count is below the
limit. -/
def noccScan (s : NoCCState) (tx_id table_id : Nat) (key_start key_end : String)
    (num_item_limit : Nat) : KVTError × List (String × String) :=
  if s.next_tx_id ≤ tx_id then (KVTError.TRANSACTION_NOT_FOUND, [])
  else if ¬ noccTableExists s table_id then (KVTError.TABLE_NOT_FOUND, [])
  else
    let tks := makeTableKey table_id key_start
    let tke := makeTableKey table_id key_end
    let range := (s.table_data.dropWhile (fun p => tkeyLtB p.1 tks)).takeWhile
      (fun p => ¬ tkeyLtB tke p.1)
    (KVTError.SUCCESS, (range.take num_item_limit).map (fun p => (p.1.2, p.2)))

/-- Restricted nebula Value for vertex/edge identifiers: the claims
exercise integer, boolean and string identifiers.  (The C++ codec also
serializes FLOAT and temporal values; those branches are not modelled,
and no theorem below touches them.) -/
inductive KVal where
  | int (i : Int)
  | str (s : String)
  | bool (b : Bool)
deriving DecidableEq, Repr

/-- KVTKeyEncoder::escapeValue (KVTKeyEncoder.cpp:306-321). -/
def escList : List Char → List Char
  | [] => []
  | c :: rest =>
      (if c = ':' then ['\\', ':']
       else if c = '\\' then ['\\', '\\']
       else [c]) ++ escList rest

def escapeValue (v : String) : String := String.mk (escList v.data)

/-- KVTKeyEncoder::unescapeValue (KVTKeyEncoder.cpp:323-344): a state
machine over the chars; after a backslash, a colon maps to the
separator and any other char is taken literally. -/
def unescGo : List Char → Bool → List Char
  | [], _ => []
  | c :: rest, true => (if c = ':' then ':' else c) :: unescGo rest false
  | c :: rest, false =>
      if c = '\\' then unescGo rest true else c :: unescGo rest false

def unescapeValue (v : String) : String := String.mk (unescGo v.data false)

/-- KVTKeyEncoder::valueToKeyString (KVTKeyEncoder.cpp:246-270),
restricted to the modelled identifier types: integers print in
decimal, booleans as true/false, strings verbatim. -/
def valueToKeyString : KVal → String
  | KVal.int i => toString i
  | KVal.str s => s
  | KVal.bool b => if b then "true" else "false"

def digitVal (c : Char) : Option Nat :=
  if 48 ≤ c.toNat ∧ c.toNat ≤ 57 then some (c.toNat - 48) else none

def digitsToNatGo : List Char → Nat → Option Nat
  | [], acc => some acc
  | c :: rest, acc =>
      match digitVal c with
      | some d => digitsToNatGo rest (acc * 10 + d)
      | none => none

/-- std::stoll with the pos == str.length() check used by
keyStringToValue: the whole string must be an optionally signed decimal
numeral. -/
def cppStollFull (s : String) : Option Int :=
  match s.data with
  | [] => none
  | c :: rest =>
      if c = '-' then
        if rest = [] then none
        else (digitsToNatGo rest 0).map (fun n => -(n : Int))
      else if c = '+' then
        if rest = [] then none
        else (digitsToNatGo rest 0).map (fun n => (n : Int))
      else (digitsToNatGo (c :: rest) 0).map (fun n => (n : Int))

/-- std::stoi / std::stoll as used on the numeric key fields during
decoding: parse an optionally signed decimal prefix, failing when no
digit is present (the C++ call throws and the decoder returns
false). -/
def cppStoi (s : String) : Option Int :=
  match s.data with
  | [] => none
  | c :: rest =>
      let signNeg := c = '-'
      let ds := if c = '-' ∨ c = '+' then rest else c :: rest
      let digs := ds.takeWhile (fun d => decide (48 ≤ d.toNat) && decide (d.toNat ≤ 57))
      if digs = [] then none
      else (digitsToNatGo digs 0).map (fun n => if signNeg then -(n : Int) else (n : Int))

/-- KVTKeyEncoder::keyStringToValue (KVTKeyEncoder.cpp:272-304): try a
full integer parse, then (float parse - not modelled, see KVal), then
the boolean literals, else the string itself. -/
def keyStringToValue (s : String) : KVal :=
  match cppStollFull s with
  | some i => KVal.int i
  | none =>
      if s = "true" then KVal.bool true
      else if s = "false" then KVal.bool false
      else KVal.str s

/-- std::getline(ss, token, SEPARATOR) tokenization: split on every
':' ; a trailing separator produces no empty final token. -/
def splitSepGo : List Char → List Char → List (List Char)
  | [], acc => [acc.reverse]
  | c :: rest, acc =>
      if c = ':' then acc.reverse :: splitSepGo rest []
      else splitSepGo rest (c :: acc)

def getlineTokens (s : String) : List String :=
  match s.data with
  | [] => []
  | l =>
    let parts := splitSepGo l []
    let parts2 := if l.getLast? = some ':' then parts.dropLast else parts
    parts2.map (fun cs => String.mk cs)

/-- KVTKeyEncoder::encodeVertexKey (KVTKeyEncoder.cpp:14-25). -/
def encodeVertexKey (spaceId partId : Int) (vertexId : KVal) (tagId : Int) : String :=
  "v" ++ ":" ++ toString spaceId ++ ":" ++ toString partId ++ ":"
    ++ escapeValue (valueToKeyString vertexId) ++ ":" ++ toString tagId

/-- KVTKeyEncoder::encodeEdgeKey (KVTKeyEncoder.cpp:27-42). -/
def encodeEdgeKey (spaceId partId : Int) (srcId : KVal) (edgeType ranking : Int)
    (dstId : KVal) : String :=
  "e" ++ ":" ++ toString spaceId ++ ":" ++ toString partId ++ ":"
    ++ escapeValue (valueToKeyString srcId) ++ ":" ++ toString edgeType ++ ":"
    ++ toString ranking ++ ":" ++ escapeValue (valueToKeyString dstId)

/-- KVTKeyEncoder::encodeReverseEdgeKey (KVTKeyEncoder.cpp:55-70):
same shape as the forward key with prefix r and dst before src. -/
def encodeReverseEdgeKey (spaceId partId : Int) (dstId : KVal) (edgeType ranking : Int)
    (srcId : KVal) : String :=
  "r" ++ ":" ++ toString spaceId ++ ":" ++ toString partId ++ ":"
    ++ escapeValue (valueToKeyString dstId) ++ ":" ++ toString edgeType ++ ":"
    ++ toString ranking ++ ":" ++ escapeValue (valueToKeyString srcId)

/-- KVTKeyEncoder::decodeVertexKey (KVTKeyEncoder.cpp:136-168): check
the one-char prefix, tokenize on every ':' (escapes are NOT honoured by
the tokenizer), require exactly 5 tokens, then parse the fields. -/
def decodeVertexKey (key : String) : Option (Int × Int × KVal × Int) :=
  if ¬ key.data.head? = some 'v' then none
  else
    let tokens := getlineTokens key
    if ¬ tokens.length = 5 then none
    else
      match cppStoi (tokens.getD 1 ""), cppStoi (tokens.getD 4 "") with
      | some sp, some tg =>
        match cppStoi (tokens.getD 2 "") with
        | some pp =>
          some (sp, pp, keyStringToValue (unescapeValue (tokens.getD 3 "")), tg)
        | none => none
      | _, _ => none

/-- KVTKeyEncoder::decodeEdgeKey (KVTKeyEncoder.cpp:170-206). -/
def decodeEdgeKey (key : String) : Option (Int × Int × KVal × Int × Int × KVal) :=
  if ¬ key.data.head? = some 'e' then none
  else
    let tokens := getlineTokens key
    if ¬ tokens.length = 7 then none
    else
      match cppStoi (tokens.getD 1 ""), cppStoi (tokens.getD 2 ""),
            cppStoi (tokens.getD 4 ""), cppStoi (tokens.getD 5 "") with
      | some sp, some pp, some et, some rk =>
        some (sp, pp, keyStringToValue (unescapeValue (tokens.getD 3 "")), et, rk,
          keyStringToValue (unescapeValue (tokens.getD 6 "")))
      | _, _, _, _ => none

/-- KVTKeyEncoder::decodeReverseEdgeKey (KVTKeyEncoder.cpp:208-244):
the decoded triple order is (dst, type, ranking, src). -/
def decodeReverseEdgeKey (key : String) : Option (Int × Int × KVal × Int × Int × KVal) :=
  if ¬ key.data.head? = some 'r' then none
  else
    let tokens := getlineTokens key
    if ¬ tokens.length = 7 then none
    else
      match cppStoi (tokens.getD 1 ""), cppStoi (tokens.getD 2 ""),
            cppStoi (tokens.getD 4 ""), cppStoi (tokens.getD 5 "") with
      | some sp, some pp, some et, some rk =>
        some (sp, pp, keyStringToValue (unescapeValue (tokens.getD 3 "")), et, rk,
          keyStringToValue (unescapeValue (tokens.getD 6 "")))
      | _, _, _, _ => none

/-- KVTKeyEncoder::vertexPrefix (KVTKeyEncoder.cpp:83-96). -/
def vertexPrefixStr (spaceId partId : Int) (vertexId : Option KVal) : String :=
  "v" ++ ":" ++ toString spaceId ++ ":" ++ toString partId ++ ":"
    ++ (match vertexId with
        | some v => escapeValue (valueToKeyString v) ++ ":"
        | none => "")

/-- KVTKeyEncoder::edgePrefix (KVTKeyEncoder.cpp:98-115). -/
def edgePrefixStr (spaceId partId : Int) (srcId : Option KVal) (edgeType : Int) : String :=
  "e" ++ ":" ++ toString spaceId ++ ":" ++ toString partId ++ ":"
    ++ (match srcId with
        | some v =>
          escapeValue (valueToKeyString v) ++ ":"
            ++ (if ¬ edgeType = 0 then toString edgeType ++ ":" else "")
        | none => "")

/-- KVTKeyEncoder::reverseEdgePrefix (KVTKeyEncoder.cpp:117-134). -/
def reverseEdgePrefixStr (spaceId partId : Int) (dstId : Option KVal) (edgeType : Int) :
    String :=
  "r" ++ ":" ++ toString spaceId ++ ":" ++ toString partId ++ ":"
    ++ (match dstId with
        | some v =>
          escapeValue (valueToKeyString v) ++ ":"
            ++ (if ¬ edgeType = 0 then toString edgeType ++ ":" else "")
        | none => "")

/-- A new edge as consumed by KVTStorageClient::addEdges: the key
components plus the encoded property payload (the output of
KVTValueEncoder::encodeNewEdge, which the client computes once and
stores under both the forward and the reverse key). -/
structure EdgeIn where
  src : KVal
  etype : Int
  ranking : Int
  dst : KVal
  payload : String
deriving DecidableEq, Repr

def fwdKeyOf (space : Int) (e : EdgeIn) : String :=
  encodeEdgeKey space 0 e.src e.etype e.ranking e.dst

def revKeyOf (space : Int) (e : EdgeIn) : String :=
  encodeReverseEdgeKey space 0 e.dst e.etype e.ranking e.src

/-- The batch built by KVTStorageClient::addEdges
(KVTStorageClient.cpp:768-811) with ifNotExists = false: for each edge,
a SET of the forward key and a SET of the reverse key, both carrying
the same payload, partId fixed to 0. -/
def addEdgeOps (space : Int) (edgeTableId : Nat) (edges : List EdgeIn) : List KVTOp :=
  edges.foldr (fun e acc =>
    KVTOp.mk KVTOpType.OP_SET edgeTableId (fwdKeyOf space e) e.payload ::
    KVTOp.mk KVTOpType.OP_SET edgeTableId (revKeyOf space e) e.payload :: acc) []

/-- KVTStorageClient::addEdges (ifNotExists = false): build the batch
and run it through KVTTransactionManager::executeBatch with txId 0. -/
def addEdges (s : OCCState) (space : Int) (edgeTableId : Nat) (edges : List EdgeIn) :
    (Except String (List KVTOpResult)) × OCCState :=
  tmExecuteBatch s (addEdgeOps space edgeTableId edges) 0

/-- An edge key as consumed by KVTStorageClient::deleteEdges. -/
structure EdgeKeyIn where
  src : KVal
  etype : Int
  ranking : Int
  dst : KVal
deriving DecidableEq, Repr

def fwdKeyOfK (space : Int) (e : EdgeKeyIn) : String :=
  encodeEdgeKey space 0 e.src e.etype e.ranking e.dst

def revKeyOfK (space : Int) (e : EdgeKeyIn) : String :=
  encodeReverseEdgeKey space 0 e.dst e.etype e.ranking e.src

/-- The batch built by KVTStorageClient::deleteEdges
(KVTStorageClient.cpp:877-937): a DEL of the forward key and a DEL of
the reverse key per edge. -/
def deleteEdgeOps (space : Int) (edgeTableId : Nat) (edges : List EdgeKeyIn) : List KVTOp :=
  edges.foldr (fun e acc =>
    KVTOp.mk KVTOpType.OP_DEL edgeTableId (fwdKeyOfK space e) "" ::
    KVTOp.mk KVTOpType.OP_DEL edgeTableId (revKeyOfK space e) "" :: acc) []

/-- KVTStorageClient::deleteEdges: run the DEL batch through
executeBatch with txId 0, then count per-op outcomes, treating
KEY_NOT_FOUND as success.  Returns the batch outcome, the final state,
and the (successCount, failureCount) pair the response is derived
from. -/
def deleteEdges (s : OCCState) (space : Int) (edgeTableId : Nat) (edges : List EdgeKeyIn) :
    (Except String (List KVTOpResult)) × OCCState × Nat × Nat :=
  let r := tmExecuteBatch s (deleteEdgeOps space edgeTableId edges) 0
  match r.1 with
  | Except.error m => (Except.error m, r.2, 0, 0)
  | Except.ok results =>
    let succ := results.countP (fun rr =>
      rr.error = KVTError.SUCCESS ∨ rr.error = KVTError.KEY_NOT_FOUND)
    (Except.ok results, r.2, succ, results.length - succ)

/-- The 0xFF sentinel byte appended to a prefix to form the scan upper
bound (scanEnd.push_back(0xFF)). -/
def hiChar : Char := Char.ofNat 255

/-- The per-vertex scan phase of KVTStorageClient::deleteVertices
(KVTStorageClient.cpp:1032-1122): scan the vertex prefix and DEL every
hit; scan the outgoing-edge prefix and DEL every hit (the corresponding
reverse keys are NOT deleted here); scan the reverse-edge prefix, DEL
every hit and additionally DEL the decoded forward key.  The source
block for the reverse scan names its space and vertex id spaceId / vid
(identifiers that are not declared at that point); they are modelled by
their evident referents param.space and vertexId.  The scans run inside
the transaction and therefore populate its read set. -/
def dvScanOne (space : Int) (vertexTableId edgeTableId txId : Nat) (vid : KVal)
    (s : OCCState) : List KVTOp × OCCState :=
  let vp := vertexPrefixStr space 0 (some vid)
  let (e1, vres, s1) := occScan s txId vertexTableId vp (vp.push hiChar) 1000
  let ops1 := if e1 = KVTError.SUCCESS then
      vres.map (fun kv => KVTOp.mk KVTOpType.OP_DEL vertexTableId kv.1 "")
    else []
  let ep := edgePrefixStr space 0 (some vid) 0
  let (e2, eres, s2) := occScan s1 txId edgeTableId ep (ep.push hiChar) 10000
  let ops2 := if e2 = KVTError.SUCCESS then
      eres.map (fun kv => KVTOp.mk KVTOpType.OP_DEL edgeTableId kv.1 "")
    else []
  let rp := reverseEdgePrefixStr space 0 (some vid) 0
  let (e3, rres, s3) := occScan s2 txId edgeTableId rp (rp.push hiChar) 10000
  let ops3 := if e3 = KVTError.SUCCESS then
      rres.foldr (fun kv acc =>
        KVTOp.mk KVTOpType.OP_DEL edgeTableId kv.1 "" ::
        ((match decodeReverseEdgeKey kv.1 with
          | some (sp, pp, dstId, et, rk, srcId) =>
            [KVTOp.mk KVTOpType.OP_DEL edgeTableId (encodeEdgeKey sp pp srcId et rk dstId) ""]
          | none => []) ++ acc)) []
    else []
  (ops1 ++ ops2 ++ ops3, s3)

def dvScanAll (space : Int) (vertexTableId edgeTableId txId : Nat) :
    List KVal → OCCState → List KVTOp × OCCState
  | [], s => ([], s)
  | vid :: rest, s =>
      let (ops1, s1) := dvScanOne space vertexTableId edgeTableId txId vid s
      let (ops2, s2) := dvScanAll space vertexTableId edgeTableId txId rest s1
      (ops1 ++ ops2, s2)

/-- KVTStorageClient::deleteVertices (KVTStorageClient.cpp:986-1177):
start a transaction, build the cascade DEL batch from the three scans
per vertex, run it with kvt_batch_execute, roll back on a hard batch
error, otherwise commit (KEY_NOT_FOUND per-op failures do not prevent
the commit).  An uncommitted transaction is rolled back by the
KVTTransaction destructor. -/
def deleteVertices (s : OCCState) (space : Int) (vertexTableId edgeTableId : Nat)
    (ids : List KVal) : KStatus × OCCState :=
  let (txId, s0) := occStart s
  let (ops, s1) := dvScanAll space vertexTableId edgeTableId txId ids s0
  let (err, _results, s2) := occBatchExecute s1 txId ops
  if ¬ err = KVTError.SUCCESS ∧ ¬ err = KVTError.BATCH_NOT_FULLY_SUCCESS then
    (KStatus.error "Batch execution failed", (occRollback s2 txId).2)
  else
    let (cerr, cmsg, s3) := occCommit s2 txId
    if ¬ cerr = KVTError.SUCCESS then
      (KStatus.error ("Failed to commit transaction: " ++ cmsg), (occRollback s3 txId).2)
    else (KStatus.ok, s3)

/-- Committed entry of a table seen through get_table_by_id, at a
composite key. -/
def tableEntryAt (s : OCCState) (ck : TKey) : Option Entry :=
  match getTableById s ck.1 with
  | none => none
  | some t => alFind t.data ck.2

/-- Keys of an association list are pairwise distinct. -/
def NoDupKeys {κ α : Type} (l : List (κ × α)) : Prop := (l.map Prod.fst).Nodup

/-- Two states agree on the table storage (the transaction map may
differ). -/
def sameTables (s s2 : OCCState) : Prop :=
  s2.tables = s.tables ∧ s2.tablename_to_id = s.tablename_to_id

/-- Every entry of the transaction's read set still matches the
committed table entry - the invariant that makes OCC commit-time
validation succeed in a sequential run. -/
def txnReadsOk (s : OCCState) (t : Nat) : Prop :=
  ∀ txn, getTxn s t = some txn → ∀ p ∈ txn.read_set, tableEntryAt s p.1 = some p.2

/-- The write set staged by a list of SET ops. -/
def stageFold (ops : List KVTOp) (w : List (TKey × Entry)) : List (TKey × Entry) :=
  ops.foldl (fun w2 op => alInsert tkeyLtB (op.table_id, op.key) (Entry.mk op.value 0) w2) w

/-- A list sorted strictly by the map order on its keys. -/
def KSorted {κ α : Type} (ltB : κ → κ → Bool) (l : List (κ × α)) : Prop :=
  l.Pairwise (fun p q => ltB p.1 q.1 = true)

/-- A concrete empty edges table (id 5) used to exercise the edge
write path. -/
def egwTable : Table := Table.mk 5 "edges" "hash" []

def egwState : OCCState := OCCState.mk [("edges", egwTable)] [] [("edges", 5)] 6 1

def egwEdge : EdgeIn := EdgeIn.mk (KVal.str "A") 7 0 (KVal.str "B") "pay"

def egwKey : EdgeKeyIn := EdgeKeyIn.mk (KVal.str "A") 7 0 (KVal.str "B")

/-- The edges table holding both directions of the edge A-7:0->B, used
to exercise the edge delete path. -/
def egwDTable : Table := Table.mk 5 "edges" "hash"
  [(fwdKeyOfK 1 egwKey, Entry.mk "pay" 1), (revKeyOfK 1 egwKey, Entry.mk "pay" 1)]

def egwDState : OCCState := OCCState.mk [("edges", egwDTable)] [] [("edges", 5)] 6 1

theorem alFind_nil {κ α : Type} [DecidableEq κ] (k : κ) :
    alFind ([] : List (κ × α)) k = none := rfl

theorem alFind_cons {κ α : Type} [DecidableEq κ] (k k2 : κ) (v : α) (l : List (κ × α)) :
    alFind ((k2, v) :: l) k = if k = k2 then some v else alFind l k := rfl

theorem alFind_alInsert_self {κ α : Type} [DecidableEq κ] (ltB : κ → κ → Bool)
    (k : κ) (v : α) (l : List (κ × α)) : alFind (alInsert ltB k v l) k = some v := by
  induction l with
  | nil => simp [alInsert, alFind]
  | cons p rest ih =>
    obtain ⟨k2, v2⟩ := p
    by_cases h : k = k2
    · simp [alInsert, h, alFind]
    · by_cases h2 : ltB k k2 = true
      · simp [alInsert, h, h2, alFind]
      · simp [alInsert, h, h2, alFind, ih]

theorem alFind_alInsert_ne {κ α : Type} [DecidableEq κ] (ltB : κ → κ → Bool)
    (k k2 : κ) (v : α) (l : List (κ × α)) (h : ¬ k2 = k) :
    alFind (alInsert ltB k v l) k2 = alFind l k2 := by
  induction l with
  | nil => simp [alInsert, alFind, h]
  | cons p rest ih =>
    obtain ⟨k3, v3⟩ := p
    by_cases hk : k = k3
    · subst hk
      simp [alInsert, alFind, h]
    · by_cases h2 : ltB k k3 = true
      · simp [alInsert, hk, h2, alFind, h]
      · simp [alInsert, hk, h2, alFind, ih]

theorem alFind_alErase_ne {κ α : Type} [DecidableEq κ] (k k2 : κ) (l : List (κ × α))
    (h : ¬ k2 = k) : alFind (alErase k l) k2 = alFind l k2 := by
  induction l with
  | nil => simp [alErase]
  | cons p rest ih =>
    obtain ⟨k3, v3⟩ := p
    by_cases hk : k = k3
    · subst hk
      simp [alErase, alFind, h]
    · simp [alErase, hk, alFind, ih]

theorem alFind_eq_none_of_not_mem_keys {κ α : Type} [DecidableEq κ]
    (k : κ) (l : List (κ × α)) (h : k ∉ l.map Prod.fst) : alFind l k = none := by
  induction l with
  | nil => rfl
  | cons p rest ih =>
    simp only [List.map_cons, List.mem_cons] at h
    push_neg at h
    simp [alFind, h.1, ih h.2]

theorem alFind_alErase_self {κ α : Type} [DecidableEq κ] (k : κ) (l : List (κ × α))
    (h : NoDupKeys l) : alFind (alErase k l) k = none := by
  induction l with
  | nil => rfl
  | cons p rest ih =>
    obtain ⟨k3, v3⟩ := p
    simp only [NoDupKeys, List.map_cons, List.nodup_cons] at h
    by_cases hk : k = k3
    · subst hk
      simpa [alErase] using alFind_eq_none_of_not_mem_keys k rest h.1
    · simp [alErase, hk, alFind, ih h.2]

theorem alErase_keys_sublist {κ α : Type} [DecidableEq κ] (k : κ) (l : List (κ × α)) :
    ((alErase k l).map Prod.fst).Sublist (l.map Prod.fst) := by
  induction l with
  | nil => simp [alErase]
  | cons p rest ih =>
    obtain ⟨k3, v3⟩ := p
    by_cases hk : k = k3
    · simp [alErase, hk]
    · simpa [alErase, hk] using ih.cons₂ k3

theorem nodupKeys_alErase {κ α : Type} [DecidableEq κ] (k : κ) (l : List (κ × α))
    (h : NoDupKeys l) : NoDupKeys (alErase k l) :=
  (alErase_keys_sublist k l).nodup h

theorem alFind_alUpdate_self {κ α : Type} [DecidableEq κ] (k : κ) (f : α → α)
    (l : List (κ × α)) : alFind (alUpdate k f l) k = (alFind l k).map f := by
  induction l with
  | nil => simp [alUpdate, alFind]
  | cons p rest ih =>
    obtain ⟨k3, v3⟩ := p
    by_cases hk : k = k3
    · simp [alUpdate, hk, alFind]
    · simp [alUpdate, hk, alFind, ih]

theorem alFind_alUpdate_ne {κ α : Type} [DecidableEq κ] (k k2 : κ) (f : α → α)
    (l : List (κ × α)) (h : ¬ k2 = k) : alFind (alUpdate k f l) k2 = alFind l k2 := by
  induction l with
  | nil => simp [alUpdate]
  | cons p rest ih =>
    obtain ⟨k3, v3⟩ := p
    by_cases hk : k = k3
    · have h2 : ¬ k2 = k3 := fun he => h (he.trans hk.symm)
      simp [alUpdate, hk, alFind, h2]
    · by_cases h3 : k2 = k3 <;> simp [alUpdate, hk, alFind, h3, ih]

theorem alInsert_keys_subset {κ α : Type} [DecidableEq κ] (ltB : κ → κ → Bool)
    (k : κ) (v : α) (l : List (κ × α)) (k2 : κ)
    (h : k2 ∈ (alInsert ltB k v l).map Prod.fst) : k2 = k ∨ k2 ∈ l.map Prod.fst := by
  induction l with
  | nil =>
    simp only [alInsert, List.map_cons, List.map_nil, List.mem_singleton] at h
    exact Or.inl h
  | cons p rest ih =>
    obtain ⟨k3, v3⟩ := p
    rw [alInsert] at h
    by_cases hk : k = k3
    · rw [if_pos hk] at h
      simp only [List.map_cons, List.mem_cons] at h
      rcases h with h | h
      · exact Or.inl h
      · exact Or.inr (by simp [h])
    · rw [if_neg hk] at h
      by_cases h2 : ltB k k3 = true
      · rw [if_pos h2] at h
        simp only [List.map_cons, List.mem_cons] at h
        rcases h with h | h | h
        · exact Or.inl h
        · exact Or.inr (by simp [h])
        · exact Or.inr (by simp [h])
      · rw [if_neg h2] at h
        simp only [List.map_cons, List.mem_cons] at h
        rcases h with h | h
        · exact Or.inr (by simp [h])
        · rcases ih h with h3 | h3
          · exact Or.inl h3
          · exact Or.inr (by simp [h3])

theorem alInsert_sorted {κ α : Type} [DecidableEq κ] (ltB : κ → κ → Bool)
    (trans : ∀ a b c : κ, ltB a b = true → ltB b c = true → ltB a c = true)
    (conn : ∀ a b : κ, ¬ a = b → ltB a b = true ∨ ltB b a = true)
    (k : κ) (v : α) (l : List (κ × α)) (h : KSorted ltB l) :
    KSorted ltB (alInsert ltB k v l) := by
  induction l with
  | nil => simp [alInsert, KSorted]
  | cons p rest ih =>
    obtain ⟨k3, v3⟩ := p
    rw [KSorted, List.pairwise_cons] at h
    by_cases hk : k = k3
    · have he : alInsert ltB k v ((k3, v3) :: rest) = (k, v) :: rest := by
        rw [alInsert, if_pos hk]
      rw [he, KSorted, List.pairwise_cons]
      refine ⟨?_, h.2⟩
      intro q hq
      rw [hk]
      exact h.1 q hq
    · by_cases h2 : ltB k k3 = true
      · have he : alInsert ltB k v ((k3, v3) :: rest) = (k, v) :: (k3, v3) :: rest := by
          rw [alInsert, if_neg hk, if_pos h2]
        rw [he, KSorted, List.pairwise_cons]
        refine ⟨?_, ?_⟩
        · intro q hq
          rcases List.mem_cons.mp hq with h3 | h3
          · rw [h3]; exact h2
          · exact trans _ _ _ h2 (h.1 q h3)
        · rw [List.pairwise_cons]
          exact ⟨h.1, h.2⟩
      · have he : alInsert ltB k v ((k3, v3) :: rest) = (k3, v3) :: alInsert ltB k v rest := by
          rw [alInsert, if_neg hk, if_neg h2]
        rw [he, KSorted, List.pairwise_cons]
        refine ⟨?_, ih h.2⟩
        intro q hq
        have hmem := alInsert_keys_subset ltB k v rest q.1 (List.mem_map_of_mem Prod.fst hq)
        rcases hmem with h3 | h3
        · rw [h3]
          rcases conn k k3 hk with h4 | h4
          · exact absurd h4 h2
          · exact h4
        · rcases List.mem_map.mp h3 with ⟨q2, hq2, hq2e⟩
          have hlt := h.1 q2 hq2
          rw [hq2e] at hlt
          exact hlt

theorem charListLtB_irrefl (l : List Char) : charListLtB l l = false := by
  induction l with
  | nil => rfl
  | cons c rest ih => simp [charListLtB, ih]

theorem charListLtB_trans (a b c : List Char) (h1 : charListLtB a b = true)
    (h2 : charListLtB b c = true) : charListLtB a c = true := by
  induction a generalizing b c with
  | nil =>
    cases b with
    | nil => cases c <;> simp_all [charListLtB]
    | cons x xs => cases c <;> simp_all [charListLtB]
  | cons x xs ih =>
    cases b with
    | nil => simp [charListLtB] at h1
    | cons y ys =>
      cases c with
      | nil => simp [charListLtB] at h2
      | cons z zs =>
        rw [charListLtB] at h1 h2 ⊢
        by_cases hxy : x.toNat < y.toNat
        · by_cases hyz : y.toNat < z.toNat
          · simp [Nat.lt_trans hxy hyz]
          · simp only [if_pos hxy] at h1
            by_cases hzy : z.toNat < y.toNat
            · simp [hyz, hzy] at h2
            · have hyz2 : y.toNat = z.toNat := Nat.le_antisymm (Nat.le_of_not_lt hzy) (Nat.le_of_not_lt hyz)
              simp [hyz2 ▸ hxy]
        · simp only [if_neg hxy] at h1
          by_cases hyx : y.toNat < x.toNat
          · simp [hyx] at h1
          · have hxy2 : x.toNat = y.toNat := Nat.le_antisymm (Nat.le_of_not_lt hyx) (Nat.le_of_not_lt hxy)
            simp only [if_neg hxy, if_neg hyx] at h1
            by_cases hyz : y.toNat < z.toNat
            · simp [hxy2 ▸ hyz]
            · by_cases hzy : z.toNat < y.toNat
              · simp [hyz, hzy] at h2
              · simp only [if_neg hyz, if_neg hzy] at h2
                have hxz : ¬ x.toNat < z.toNat := by omega
                have hzx : ¬ z.toNat < x.toNat := by omega
                simp [hxz, hzx, ih ys zs h1 h2]

theorem charListLtB_conn (a b : List Char) (h : ¬ a = b) :
    charListLtB a b = true ∨ charListLtB b a = true := by
  induction a generalizing b with
  | nil =>
    cases b with
    | nil => exact absurd rfl h
    | cons y ys => left; rfl
  | cons x xs ih =>
    cases b with
    | nil => right; rfl
    | cons y ys =>
      by_cases hxy : x.toNat < y.toNat
      · left; simp [charListLtB, hxy]
      · by_cases hyx : y.toNat < x.toNat
        · right; simp [charListLtB, hyx]
        · have hx : x.toNat = y.toNat := by omega
          have hxe : x = y := Char.ext (UInt32.ext hx)
          subst hxe
          have hne : ¬ xs = ys := fun he => h (by rw [he])
          rcases ih ys hne with h1 | h1
          · left; simp [charListLtB, h1]
          · right; simp [charListLtB, h1]

theorem stringDataInj (a b : String) (h : a.data = b.data) : a = b := by
  cases a
  cases b
  simp only [String.data] at h
  rw [h]

theorem strLtB_eq_of_not (a b : String) (h1 : strLtB a b = false) (h2 : strLtB b a = false) :
    a = b := by
  by_contra hne
  have hd : ¬ a.data = b.data := fun he => hne (stringDataInj a b he)
  rcases charListLtB_conn a.data b.data hd with h3 | h3
  · rw [strLtB] at h1; rw [h1] at h3; exact Bool.false_ne_true h3
  · rw [strLtB] at h2; rw [h2] at h3; exact Bool.false_ne_true h3

theorem tkeyLtB_trans (a b c : TKey) (h1 : tkeyLtB a b = true) (h2 : tkeyLtB b c = true) :
    tkeyLtB a c = true := by
  rw [tkeyLtB] at h1 h2 ⊢
  simp only [Bool.or_eq_true, Bool.and_eq_true, decide_eq_true_eq] at h1 h2 ⊢
  rcases h1 with h1 | ⟨h1e, h1s⟩
  · rcases h2 with h2 | ⟨h2e, _⟩
    · exact Or.inl (Nat.lt_trans h1 h2)
    · exact Or.inl (h2e ▸ h1)
  · rcases h2 with h2 | ⟨h2e, h2s⟩
    · exact Or.inl (h1e ▸ h2)
    · exact Or.inr ⟨h1e.trans h2e, charListLtB_trans _ _ _ h1s h2s⟩

theorem tkeyLtB_conn (a b : TKey) (h : ¬ a = b) :
    tkeyLtB a b = true ∨ tkeyLtB b a = true := by
  obtain ⟨a1, a2⟩ := a
  obtain ⟨b1, b2⟩ := b
  by_cases h1 : a1 < b1
  · left; simp [tkeyLtB, h1]
  · by_cases h2 : b1 < a1
    · right; simp [tkeyLtB, h2]
    · have he : a1 = b1 := by omega
      subst he
      have hne : ¬ a2 = b2 := fun hx => h (by rw [hx])
      have hd : ¬ a2.data = b2.data := fun hx => hne (stringDataInj a2 b2 hx)
      rcases charListLtB_conn a2.data b2.data hd with h3 | h3
      · left; simp [tkeyLtB, strLtB, h3]
      · right; simp [tkeyLtB, strLtB, h3]

theorem tkeyLtB_irrefl (a : TKey) : tkeyLtB a a = false := by
  simp [tkeyLtB, strLtB, charListLtB_irrefl]

theorem KSorted_nodupKeys {α : Type} (l : List (TKey × α)) (h : KSorted tkeyLtB l) :
    NoDupKeys l := by
  rw [NoDupKeys]
  have hpair : l.Pairwise (fun p q => p.1 ≠ q.1) := by
    refine h.imp ?_
    intro p q hpq hpe
    rw [hpe, tkeyLtB_irrefl] at hpq
    exact Bool.false_ne_true hpq
  exact List.Pairwise.map Prod.fst (fun a b hx => hx) hpair

/-- unescapeValue inverts escapeValue at the char-list level. -/
theorem unescGo_escList (cs : List Char) : unescGo (escList cs) false = cs := by
  induction cs with
  | nil => rfl
  | cons c rest ih =>
    by_cases h1 : c = ':'
    · subst h1; simp [escList, unescGo, ih]
    · by_cases h2 : c = '\\'
      · subst h2; simp [escList, unescGo, ih]
      · simp [escList, h1, h2, unescGo, ih]

/-- C10: For every byte string s, unescapeValue (escapeValue s) = s:
escaping replaces each separator with a backslash-colon pair and each
backslash with a doubled backslash, and unescaping exactly inverts
this, including for strings with adjacent or trailing backslashes and
embedded separators. -/
theorem unescape_escape_roundtrip (s : String) : unescapeValue (escapeValue s) = s := by
  cases s with
  | mk d => simp [escapeValue, unescapeValue, unescGo_escList]

/-- C4: evaluation of the failing input.  Under the Simple strategy,
commit applies the write set with table_data.insert(write_set...) -
std::map::insert, which does not overwrite keys already present - so
after begin, set k:="new" (k committed as "old") and a successful
commit, the table still maps k to "old", contradicting the claim that
commit installs every write_set entry including keys that already
existed. -/
theorem simple_commit_keeps_old_value :
    (let s0 : SimpleState :=
      { table_data := [((1, "k"), "old")], table_to_id := [("t", 1)],
        next_table_id := 2, next_tx_id := 1, current_tx_id := 0,
        write_set := [], delete_set := [] }
     let r1 := simpleStart s0
     let r2 := simpleSet r1.2.2 r1.2.1 1 "k" "new"
     let r3 := simpleCommit r2.2 r1.2.1
     (r1.1, r2.1, r3.1, simpleGet r3.2 0 1 "k")) =
    (KVTError.SUCCESS, KVTError.SUCCESS, KVTError.SUCCESS,
      (KVTError.SUCCESS, some "old")) := by decide

/-- C5: evaluation of the failing inputs.  NoCC scan iterates from
lower_bound(start) to upper_bound(end), so the end key "b" itself is
returned by scan(["a","b"), 10); Simple scan additionally never
consults num_item_limit, so scan(["a","c"), 1) returns three rows and
also includes the end key "c".  Both contradict the closed-open
[start, end) bound and the at-most-n-results contract. -/
theorem scan_end_inclusive_and_limit_ignored :
    (let s5 : NoCCState :=
      { table_data := [((1, "a"), "1"), ((1, "b"), "2"), ((1, "c"), "3")],
        table_to_id := [("t", 1)], next_table_id := 2, next_tx_id := 1 }
     noccScan s5 0 1 "a" "b" 10) = (KVTError.SUCCESS, [("a", "1"), ("b", "2")]) ∧
    (let s5b : SimpleState :=
      { table_data := [((1, "a"), "1"), ((1, "b"), "2"), ((1, "c"), "3")],
        table_to_id := [("t", 1)], next_table_id := 2, next_tx_id := 1,
        current_tx_id := 0, write_set := [], delete_set := [] }
     simpleScan s5b 0 1 "a" "c" 1) =
      (KVTError.SUCCESS, [("a", "1"), ("b", "2"), ("c", "3")]) := by decide

/-- C6: evaluation of the failing input.  encodeVertexKey escapes the
separators inside the string vid "vertex:with:colons", but
decodeVertexKey tokenizes on every ':' without honouring the escape, so
it sees 7 tokens instead of 5 and fails - the decode does not succeed,
contradicting the claim (and the repository's own
KVTKeyEncoderTest.EscapeUnescapeValue). -/
theorem decode_fails_on_escaped_separator :
    encodeVertexKey 100 1 (KVal.str "vertex:with:colons") 10 =
      "v:100:1:vertex\\:with\\:colons:10" ∧
    decodeVertexKey (encodeVertexKey 100 1 (KVal.str "vertex:with:colons") 10) = none ∧
    decodeVertexKey (encodeVertexKey 100 1 (KVal.str "hello") 10) =
      some (100, 1, KVal.str "hello", 10) := by decide

/-- C3 counterexample: the claim fails for the Simple strategy at this
input.  With k committed as "old" and an open transaction that staged
set k:="new", a one-shot get (tx_id = 0) returns the STAGED value
"new", because KVTMemManagerSimple::get consults the active
transaction's write_set before the table for every caller. -/
theorem one_shot_get_observes_staged_simple :
    (let s0 : SimpleState :=
      { table_data := [((1, "k"), "old")], table_to_id := [("t", 1)],
        next_table_id := 2, next_tx_id := 1, current_tx_id := 0,
        write_set := [], delete_set := [] }
     let r1 := simpleStart s0
     let r2 := simpleSet r1.2.2 r1.2.1 1 "k" "new"
     (alFind r2.2.table_data (1, "k"), simpleGet r2.2 0 1 "k")) =
    (some "old", (KVTError.SUCCESS, some "new")) := by decide

/-- C8: evaluation of the failing input.  Vertices P, Q, R with edges
P->Q and Q->R (forward and reverse rows each).  deleteVertices({Q})
commits successfully, but the outgoing-edge phase only deletes the
forward key e:1:0:Q:400:0:R and never the matching reverse key, so the
reverse-edge entry r:1:0:R:400:0:Q - which involves Q - survives the
cascade, contradicting the claim (and the cascade documented by
test_reverse_edge_simple.cpp). -/
theorem cascade_leaves_reverse_entry :
    (let s8 : OCCState :=
      { tables :=
          [("E", { id := 2, name := "E", partition_method := "hash",
                   data := [("e:1:0:P:400:0:Q", Entry.mk "ep" 1),
                            ("e:1:0:Q:400:0:R", Entry.mk "ep" 1),
                            ("r:1:0:Q:400:0:P", Entry.mk "ep" 1),
                            ("r:1:0:R:400:0:Q", Entry.mk "ep" 1)] }),
           ("V", { id := 1, name := "V", partition_method := "hash",
                   data := [("v:1:0:P:0", Entry.mk "props" 1),
                            ("v:1:0:Q:0", Entry.mk "props" 1),
                            ("v:1:0:R:0", Entry.mk "props" 1)] })],
        transactions := [], tablename_to_id := [("E", 2), ("V", 1)],
        next_table_id := 3, next_tx_id := 1 }
     let r := deleteVertices s8 1 1 2 [KVal.str "Q"]
     (r.1, tableEntryAt r.2 (2, "r:1:0:R:400:0:Q"),
      tableEntryAt r.2 (2, "e:1:0:Q:400:0:R"),
      tableEntryAt r.2 (2, "e:1:0:P:400:0:Q"),
      tableEntryAt r.2 (1, "v:1:0:Q:0"))) =
    (KStatus.ok, some (Entry.mk "ep" 1), none, none, none) := by decide

/-- C9: evaluation of the failing input.  The body reads k inside the
transaction and a concurrent one-shot write bumps its version, so the
commit fails with the engine message "Transaction 1 has stale data".
executeWithRetry searches that message for the uppercase substrings
"STALE_DATA" / "LOCKED", finds neither, and returns the error after
the first attempt: zero retries are performed although maxRetries = 3
and the failure is a stale-data conflict. -/
theorem execute_with_retry_never_retries :
    (let s9 : OCCState :=
      { tables := [("T", { id := 1, name := "T", partition_method := "hash",
                           data := [("k", Entry.mk "v0" 1)] })],
        transactions := [], tablename_to_id := [("T", 1)],
        next_table_id := 2, next_tx_id := 1 }
     let body : Nat → OCCState → KStatus × OCCState := fun txid s =>
       let r1 := occGet s txid 1 "k"
       let r2 := occSet r1.2.2 0 1 "k" "x"
       let r3 := occSet r2.2 txid 1 "k" "y"
       (KStatus.ok, r3.2)
     let r := executeWithRetry s9 body 3
     (r.1, r.2.2)) =
    (KStatus.error "Failed to commit transaction: Transaction 1 has stale data", 0) := by
  decide

/-- C3 (amended): Under the OCC strategy, a one-shot get (tx_id = 0)
of key k issued while an open transaction has staged but not committed
a write or delete of k returns the committed table value of k (staged
sets are never consulted); under the Simple strategy, by contrast, a
one-shot get reads the active transaction's write_set first and
returns the staged value. -/
theorem one_shot_get_committed_amended :
    (∀ (s : OCCState) (tid : Nat) (k : String) (tbl : Table) (t : Nat) (txn : Txn),
      getTableById s tid = some tbl →
      getTxn s t = some txn →
      ((alFind txn.write_set (tid, k)).isSome ∨ (tid, k) ∈ txn.delete_set) →
      occGet s 0 tid k =
        (match alFind tbl.data k with
         | some e => (KVTError.SUCCESS, some e.data, s)
         | none => (KVTError.KEY_NOT_FOUND, none, s))) ∧
    (∀ (s : SimpleState) (tid : Nat) (k v : String),
      simpleTableExists s tid = true →
      alFind s.write_set (tid, k) = some v →
      simpleGet s 0 tid k = (KVTError.SUCCESS, some v)) := by
  constructor
  · intro s tid k tbl t txn ht _htx _hstaged
    rw [occGet, if_pos rfl, ht]
    cases h : alFind tbl.data k <;> simp [h]
  · intro s tid k v hte hw
    rw [simpleGet, if_neg (by simp [hte])]
    rw [if_neg (by simp)]
    simp only [makeTableKey, hw]

/-- C3 witness: the amended theorem applied at a concrete state - an
OCC table holding k = "old" while transaction 1 stages k := "new", and
the Simple counterpart. -/
theorem one_shot_get_committed_amended_witness :
    (occGet
      { tables := [("T", Table.mk 1 "T" "hash" [("k", Entry.mk "old" 1)])],
        transactions := [(1, Txn.mk 1 [] [((1, "k"), Entry.mk "new" 0)] [])],
        tablename_to_id := [("T", 1)], next_table_id := 2, next_tx_id := 2 }
      0 1 "k" =
      (KVTError.SUCCESS, some "old",
        { tables := [("T", Table.mk 1 "T" "hash" [("k", Entry.mk "old" 1)])],
          transactions := [(1, Txn.mk 1 [] [((1, "k"), Entry.mk "new" 0)] [])],
          tablename_to_id := [("T", 1)], next_table_id := 2, next_tx_id := 2 })) ∧
    (simpleGet
      { table_data := [((1, "k"), "old")], table_to_id := [("t", 1)],
        next_table_id := 2, next_tx_id := 2, current_tx_id := 1,
        write_set := [((1, "k"), "new")], delete_set := [] }
      0 1 "k" = (KVTError.SUCCESS, some "new")) := by
  constructor
  · exact (one_shot_get_committed_amended.1
      { tables := [("T", Table.mk 1 "T" "hash" [("k", Entry.mk "old" 1)])],
        transactions := [(1, Txn.mk 1 [] [((1, "k"), Entry.mk "new" 0)] [])],
        tablename_to_id := [("T", 1)], next_table_id := 2, next_tx_id := 2 }
      1 "k" (Table.mk 1 "T" "hash" [("k", Entry.mk "old" 1)])
      1 (Txn.mk 1 [] [((1, "k"), Entry.mk "new" 0)] [])
      (by decide) (by decide) (Or.inl (by decide))).trans (by decide)
  · exact one_shot_get_committed_amended.2
      { table_data := [((1, "k"), "old")], table_to_id := [("t", 1)],
        next_table_id := 2, next_tx_id := 2, current_tx_id := 1,
        write_set := [((1, "k"), "new")], delete_set := [] }
      1 "k" "new" (by decide) (by decide)

/-- C1: Under the OCC strategy, for every two transactions T1 and T2
that each successfully get the same existing key k and then each set
k, exactly one of the two commits returns SUCCESS and installs its
staged value with the version incremented, and the other commit fails
with TRANSACTION_HAS_STALE_DATA and installs nothing; the key's final
value is the successful transaction's value.  Both commit orders are
covered: the first commit to run wins. -/
theorem occ_write_write_conflict
    (nm pm k v w1 w2 : String) (d : List (String × Entry)) (tid t1 t2 ntid ntx : Nat)
    (ver : Int)
    (hk : alFind d k = some (Entry.mk v ver))
    (h10 : ¬ t1 = 0) (h20 : ¬ t2 = 0) (h12 : ¬ t2 = t1) :
    (let s0 : OCCState :=
      { tables := [(nm, Table.mk tid nm pm d)],
        transactions := [(t1, Txn.mk t1 [] [] []), (t2, Txn.mk t2 [] [] [])],
        tablename_to_id := [(nm, tid)],
        next_table_id := ntid, next_tx_id := ntx }
     let g1 := occGet s0 t1 tid k
     let g2 := occGet g1.2.2 t2 tid k
     let u1 := occSet g2.2.2 t1 tid k w1
     let u2 := occSet u1.2 t2 tid k w2
     let c1 := occCommit u2.2 t1
     let c2 := occCommit c1.2.2 t2
     let e1 := occCommit u2.2 t2
     let e2 := occCommit e1.2.2 t1
     g1.1 = KVTError.SUCCESS ∧ g1.2.1 = some v ∧
     g2.1 = KVTError.SUCCESS ∧ g2.2.1 = some v ∧
     u1.1 = KVTError.SUCCESS ∧ u2.1 = KVTError.SUCCESS ∧
     c1.1 = KVTError.SUCCESS ∧
     tableEntryAt c1.2.2 (tid, k) = some (Entry.mk w1 (ver + 1)) ∧
     c2.1 = KVTError.TRANSACTION_HAS_STALE_DATA ∧
     c2.2.2.tables = c1.2.2.tables ∧
     tableEntryAt c2.2.2 (tid, k) = some (Entry.mk w1 (ver + 1)) ∧
     e1.1 = KVTError.SUCCESS ∧
     tableEntryAt e1.2.2 (tid, k) = some (Entry.mk w2 (ver + 1)) ∧
     e2.1 = KVTError.TRANSACTION_HAS_STALE_DATA ∧
     e2.2.2.tables = e1.2.2.tables ∧
     tableEntryAt e2.2.2 (tid, k) = some (Entry.mk w2 (ver + 1))) := by
  have h21 : ¬ t1 = t2 := fun h => h12 h.symm
  have hle : decide (ver ≤ ver) = true := by simp
  have hnle : decide (ver + 1 ≤ ver) = false := by
    apply decide_eq_false
    omega
  have hg1 : occGet
      { tables := [(nm, Table.mk tid nm pm d)],
        transactions := [(t1, Txn.mk t1 [] [] []), (t2, Txn.mk t2 [] [] [])],
        tablename_to_id := [(nm, tid)],
        next_table_id := ntid, next_tx_id := ntx } t1 tid k =
      (KVTError.SUCCESS, some v,
        { tables := [(nm, Table.mk tid nm pm d)],
          transactions := [(t1, Txn.mk t1 [((tid, k), Entry.mk v ver)] [] []),
                           (t2, Txn.mk t2 [] [] [])],
          tablename_to_id := [(nm, tid)],
          next_table_id := ntid, next_tx_id := ntx }) := by
    simp [occGet, getTxn, getTableById, getTableEntryById, updateTxn, makeTableKey,
      alFind, alInsert, alUpdate, h10, hk]
  have hg2 : occGet
      { tables := [(nm, Table.mk tid nm pm d)],
        transactions := [(t1, Txn.mk t1 [((tid, k), Entry.mk v ver)] [] []),
                         (t2, Txn.mk t2 [] [] [])],
        tablename_to_id := [(nm, tid)],
        next_table_id := ntid, next_tx_id := ntx } t2 tid k =
      (KVTError.SUCCESS, some v,
        { tables := [(nm, Table.mk tid nm pm d)],
          transactions := [(t1, Txn.mk t1 [((tid, k), Entry.mk v ver)] [] []),
                           (t2, Txn.mk t2 [((tid, k), Entry.mk v ver)] [] [])],
          tablename_to_id := [(nm, tid)],
          next_table_id := ntid, next_tx_id := ntx }) := by
    simp [occGet, getTxn, getTableById, getTableEntryById, updateTxn, makeTableKey,
      alFind, alInsert, alUpdate, h20, h12, hk]
  have hu1 : occSet
      { tables := [(nm, Table.mk tid nm pm d)],
        transactions := [(t1, Txn.mk t1 [((tid, k), Entry.mk v ver)] [] []),
                         (t2, Txn.mk t2 [((tid, k), Entry.mk v ver)] [] [])],
        tablename_to_id := [(nm, tid)],
        next_table_id := ntid, next_tx_id := ntx } t1 tid k w1 =
      (KVTError.SUCCESS,
        { tables := [(nm, Table.mk tid nm pm d)],
          transactions :=
            [(t1, Txn.mk t1 [((tid, k), Entry.mk v ver)] [((tid, k), Entry.mk w1 0)] []),
             (t2, Txn.mk t2 [((tid, k), Entry.mk v ver)] [] [])],
          tablename_to_id := [(nm, tid)],
          next_table_id := ntid, next_tx_id := ntx }) := by
    simp [occSet, getTxn, updateTxn, makeTableKey, alFind, alInsert, alUpdate, h10]
  have hu2 : occSet
      { tables := [(nm, Table.mk tid nm pm d)],
        transactions :=
          [(t1, Txn.mk t1 [((tid, k), Entry.mk v ver)] [((tid, k), Entry.mk w1 0)] []),
           (t2, Txn.mk t2 [((tid, k), Entry.mk v ver)] [] [])],
        tablename_to_id := [(nm, tid)],
        next_table_id := ntid, next_tx_id := ntx } t2 tid k w2 =
      (KVTError.SUCCESS,
        { tables := [(nm, Table.mk tid nm pm d)],
          transactions :=
            [(t1, Txn.mk t1 [((tid, k), Entry.mk v ver)] [((tid, k), Entry.mk w1 0)] []),
             (t2, Txn.mk t2 [((tid, k), Entry.mk v ver)] [((tid, k), Entry.mk w2 0)] [])],
          tablename_to_id := [(nm, tid)],
          next_table_id := ntid, next_tx_id := ntx }) := by
    simp [occSet, getTxn, updateTxn, makeTableKey, alFind, alInsert, alUpdate, h20, h12]
  have hc1 : occCommit
      { tables := [(nm, Table.mk tid nm pm d)],
        transactions :=
          [(t1, Txn.mk t1 [((tid, k), Entry.mk v ver)] [((tid, k), Entry.mk w1 0)] []),
           (t2, Txn.mk t2 [((tid, k), Entry.mk v ver)] [((tid, k), Entry.mk w2 0)] [])],
        tablename_to_id := [(nm, tid)],
        next_table_id := ntid, next_tx_id := ntx } t1 =
      (KVTError.SUCCESS, "",
        { tables := [(nm, Table.mk tid nm pm (alInsert strLtB k (Entry.mk w1 (ver + 1)) d))],
          transactions := [(t2, Txn.mk t2 [((tid, k), Entry.mk v ver)] [((tid, k), Entry.mk w2 0)] [])],
          tablename_to_id := [(nm, tid)],
          next_table_id := ntid, next_tx_id := ntx }) := by
    simp [occCommit, getTxn, validateReadSet, readEntryOk, getTableById, getTableEntryById,
      applyDeletes, applyWrites, applyDeleteStep, applyWriteStep, newVersionFor,
      updateTableById, eraseTxn, alFind, alErase, alUpdate, hk, hle, h12]
  have hc2 : occCommit
      { tables := [(nm, Table.mk tid nm pm (alInsert strLtB k (Entry.mk w1 (ver + 1)) d))],
        transactions := [(t2, Txn.mk t2 [((tid, k), Entry.mk v ver)] [((tid, k), Entry.mk w2 0)] [])],
        tablename_to_id := [(nm, tid)],
        next_table_id := ntid, next_tx_id := ntx } t2 =
      (KVTError.TRANSACTION_HAS_STALE_DATA,
        "Transaction " ++ toString t2 ++ " has stale data",
        { tables := [(nm, Table.mk tid nm pm (alInsert strLtB k (Entry.mk w1 (ver + 1)) d))],
          transactions := [],
          tablename_to_id := [(nm, tid)],
          next_table_id := ntid, next_tx_id := ntx }) := by
    simp [occCommit, getTxn, validateReadSet, readEntryOk, getTableById, getTableEntryById,
      eraseTxn, alFind, alErase, alFind_alInsert_self, hnle]
  have he1 : occCommit
      { tables := [(nm, Table.mk tid nm pm d)],
        transactions :=
          [(t1, Txn.mk t1 [((tid, k), Entry.mk v ver)] [((tid, k), Entry.mk w1 0)] []),
           (t2, Txn.mk t2 [((tid, k), Entry.mk v ver)] [((tid, k), Entry.mk w2 0)] [])],
        tablename_to_id := [(nm, tid)],
        next_table_id := ntid, next_tx_id := ntx } t2 =
      (KVTError.SUCCESS, "",
        { tables := [(nm, Table.mk tid nm pm (alInsert strLtB k (Entry.mk w2 (ver + 1)) d))],
          transactions := [(t1, Txn.mk t1 [((tid, k), Entry.mk v ver)] [((tid, k), Entry.mk w1 0)] [])],
          tablename_to_id := [(nm, tid)],
          next_table_id := ntid, next_tx_id := ntx }) := by
    simp [occCommit, getTxn, validateReadSet, readEntryOk, getTableById, getTableEntryById,
      applyDeletes, applyWrites, applyDeleteStep, applyWriteStep, newVersionFor,
      updateTableById, eraseTxn, alFind, alErase, alUpdate, hk, hle, h12, h21]
  have he2 : occCommit
      { tables := [(nm, Table.mk tid nm pm (alInsert strLtB k (Entry.mk w2 (ver + 1)) d))],
        transactions := [(t1, Txn.mk t1 [((tid, k), Entry.mk v ver)] [((tid, k), Entry.mk w1 0)] [])],
        tablename_to_id := [(nm, tid)],
        next_table_id := ntid, next_tx_id := ntx } t1 =
      (KVTError.TRANSACTION_HAS_STALE_DATA,
        "Transaction " ++ toString t1 ++ " has stale data",
        { tables := [(nm, Table.mk tid nm pm (alInsert strLtB k (Entry.mk w2 (ver + 1)) d))],
          transactions := [],
          tablename_to_id := [(nm, tid)],
          next_table_id := ntid, next_tx_id := ntx }) := by
    simp [occCommit, getTxn, validateReadSet, readEntryOk, getTableById, getTableEntryById,
      eraseTxn, alFind, alErase, alFind_alInsert_self, hnle]
  dsimp only
  rw [hg1]
  dsimp only
  rw [hg2]
  dsimp only
  rw [hu1]
  dsimp only
  rw [hu2]
  dsimp only
  rw [hc1, he1]
  dsimp only
  rw [hc2, he2]
  dsimp only
  refine ⟨rfl, rfl, rfl, rfl, rfl, rfl, rfl, ?_, rfl, rfl, ?_, rfl, ?_, rfl, rfl, ?_⟩ <;>
    simp [tableEntryAt, getTableById, getTableEntryById, alFind, alFind_alInsert_self]

/-- C1 witness: the conflict theorem applied at the concrete seed
scenario - key "c" = "orig" at version 1, transactions 1 and 2, staged
values "v1" and "v2". -/
theorem occ_write_write_conflict_witness :
    (let s0 : OCCState :=
      { tables := [("T", Table.mk 1 "T" "hash" [("c", Entry.mk "orig" 1)])],
        transactions := [(1, Txn.mk 1 [] [] []), (2, Txn.mk 2 [] [] [])],
        tablename_to_id := [("T", 1)],
        next_table_id := 2, next_tx_id := 3 }
     let g1 := occGet s0 1 1 "c"
     let g2 := occGet g1.2.2 2 1 "c"
     let u1 := occSet g2.2.2 1 1 "c" "v1"
     let u2 := occSet u1.2 2 1 "c" "v2"
     let c1 := occCommit u2.2 1
     let c2 := occCommit c1.2.2 2
     let e1 := occCommit u2.2 2
     let e2 := occCommit e1.2.2 1
     g1.1 = KVTError.SUCCESS ∧ g1.2.1 = some "orig" ∧
     g2.1 = KVTError.SUCCESS ∧ g2.2.1 = some "orig" ∧
     u1.1 = KVTError.SUCCESS ∧ u2.1 = KVTError.SUCCESS ∧
     c1.1 = KVTError.SUCCESS ∧
     tableEntryAt c1.2.2 (1, "c") = some (Entry.mk "v1" (1 + 1)) ∧
     c2.1 = KVTError.TRANSACTION_HAS_STALE_DATA ∧
     c2.2.2.tables = c1.2.2.tables ∧
     tableEntryAt c2.2.2 (1, "c") = some (Entry.mk "v1" (1 + 1)) ∧
     e1.1 = KVTError.SUCCESS ∧
     tableEntryAt e1.2.2 (1, "c") = some (Entry.mk "v2" (1 + 1)) ∧
     e2.1 = KVTError.TRANSACTION_HAS_STALE_DATA ∧
     e2.2.2.tables = e1.2.2.tables ∧
     tableEntryAt e2.2.2 (1, "c") = some (Entry.mk "v2" (1 + 1))) :=
  occ_write_write_conflict "T" "hash" "c" "orig" "v1" "v2"
    [("c", Entry.mk "orig" 1)] 1 1 2 2 3 1 (by decide) (by decide) (by decide) (by decide)

theorem sameTables_refl (s : OCCState) : sameTables s s := ⟨rfl, rfl⟩

theorem sameTables_trans {s s2 s3 : OCCState} (h1 : sameTables s s2) (h2 : sameTables s2 s3) :
    sameTables s s3 := ⟨h2.1.trans h1.1, h2.2.trans h1.2⟩

theorem getTableById_sameTables {s s2 : OCCState} (h : sameTables s s2) (tid : Nat) :
    getTableById s2 tid = getTableById s tid := by
  rw [getTableById, getTableById, h.1, h.2]

theorem tableEntryAt_sameTables {s s2 : OCCState} (h : sameTables s s2) (ck : TKey) :
    tableEntryAt s2 ck = tableEntryAt s ck := by
  rw [tableEntryAt, tableEntryAt, getTableById_sameTables h]

theorem getTxn_updateTxn_self (s : OCCState) (t : Nat) (f : Txn → Txn) :
    getTxn (updateTxn s t f) t = (getTxn s t).map f := by
  simp [getTxn, updateTxn, alFind_alUpdate_self]

theorem mem_alInsert {κ α : Type} [DecidableEq κ] (ltB : κ → κ → Bool) (k : κ) (v : α)
    (l : List (κ × α)) (q : κ × α) (h : q ∈ alInsert ltB k v l) : q = (k, v) ∨ q ∈ l := by
  induction l with
  | nil =>
    rw [alInsert] at h
    exact Or.inl (List.mem_singleton.mp h)
  | cons p rest ih =>
    obtain ⟨k3, v3⟩ := p
    rw [alInsert] at h
    by_cases hk : k = k3
    · rw [if_pos hk] at h
      rcases List.mem_cons.mp h with h1 | h1
      · exact Or.inl h1
      · exact Or.inr (List.mem_cons_of_mem _ h1)
    · rw [if_neg hk] at h
      by_cases h2 : ltB k k3 = true
      · rw [if_pos h2] at h
        rcases List.mem_cons.mp h with h1 | h1
        · exact Or.inl h1
        · exact Or.inr h1
      · rw [if_neg h2] at h
        rcases List.mem_cons.mp h with h1 | h1
        · exact Or.inr (by rw [h1]; exact List.mem_cons_self _ _)
        · rcases ih h1 with h3 | h3
          · exact Or.inl h3
          · exact Or.inr (List.mem_cons_of_mem _ h3)

theorem occGet_sameTables (s : OCCState) (t tid : Nat) (k : String) (h : ¬ t = 0) :
    sameTables s (occGet s t tid k).2.2 := by
  rw [occGet, if_neg h]
  dsimp only
  repeat' split
  all_goals exact ⟨rfl, rfl⟩

theorem occSet_sameTables (s : OCCState) (t tid : Nat) (k w : String) (h : ¬ t = 0) :
    sameTables s (occSet s t tid k w).2 := by
  rw [occSet, if_neg h]
  dsimp only
  repeat' split
  all_goals exact ⟨rfl, rfl⟩

theorem occDel_sameTables (s : OCCState) (t tid : Nat) (k : String) (h : ¬ t = 0) :
    sameTables s (occDel s t tid k).2 := by
  rw [occDel, if_neg h]
  dsimp only
  repeat' split
  all_goals exact ⟨rfl, rfl⟩

theorem occExecOp_sameTables (s : OCCState) (t : Nat) (op : KVTOp) (h : ¬ t = 0) :
    sameTables s (occExecOp s t op).2 := by
  rw [occExecOp]
  cases op.op
  · exact ⟨rfl, rfl⟩
  · exact occGet_sameTables s t op.table_id op.key h
  · exact occSet_sameTables s t op.table_id op.key op.value h
  · exact occDel_sameTables s t op.table_id op.key h

theorem occBatchGo_sameTables (t : Nat) (ops : List KVTOp) (s : OCCState) (h : ¬ t = 0) :
    sameTables s (occBatchGo t ops s).2 := by
  induction ops generalizing s with
  | nil => exact ⟨rfl, rfl⟩
  | cons op rest ih =>
    rw [occBatchGo]
    exact sameTables_trans (occExecOp_sameTables s t op h)
      (ih (occExecOp s t op).2)

theorem occRollback_sameTables (s : OCCState) (t : Nat) :
    sameTables s (occRollback s t).2 := by
  rw [occRollback]
  cases getTxn s t
  · exact ⟨rfl, rfl⟩
  · exact ⟨rfl, rfl⟩

theorem occStart_sameTables (s : OCCState) : sameTables s (occStart s).2 := ⟨rfl, rfl⟩

theorem occGet_readsOk (s : OCCState) (t tid : Nat) (k : String) (h : ¬ t = 0)
    (hro : txnReadsOk s t) : txnReadsOk (occGet s t tid k).2.2 t := by
  rw [occGet, if_neg h]
  cases hx : getTxn s t with
  | none => exact hro
  | some txn =>
    dsimp only
    cases hw : alFind txn.write_set (makeTableKey tid k) with
    | some e => exact hro
    | none =>
      dsimp only
      by_cases hd : makeTableKey tid k ∈ txn.delete_set
      · rw [if_pos hd]; exact hro
      · rw [if_neg hd]
        cases hr : alFind txn.read_set (makeTableKey tid k) with
        | some e => exact hro
        | none =>
          dsimp only
          cases ht : getTableById s tid with
          | none => exact hro
          | some tbl =>
            dsimp only
            cases he : alFind tbl.data k with
            | none => exact hro
            | some e =>
              dsimp only
              intro txn2 htxn2 p hp
              rw [getTxn_updateTxn_self, hx] at htxn2
              have htxn2e : txn2 = { txn with
                  read_set := alInsert tkeyLtB (makeTableKey tid k) e txn.read_set } := by
                exact (Option.some_injective _ htxn2).symm
              rw [htxn2e] at hp
              have hsame : sameTables s (updateTxn s t (fun tx2 =>
                  { tx2 with read_set := alInsert tkeyLtB (makeTableKey tid k) e tx2.read_set })) :=
                ⟨rfl, rfl⟩
              rw [tableEntryAt_sameTables hsame]
              rcases mem_alInsert tkeyLtB (makeTableKey tid k) e txn.read_set p hp with h1 | h1
              · rw [h1]
                rw [tableEntryAt, makeTableKey, ht]
                exact he
              · exact hro txn hx p h1

theorem occSet_readsOk (s : OCCState) (t tid : Nat) (k w : String) (h : ¬ t = 0)
    (hro : txnReadsOk s t) : txnReadsOk (occSet s t tid k w).2 t := by
  rw [occSet, if_neg h]
  cases hx : getTxn s t with
  | none => exact hro
  | some txn =>
    dsimp only
    intro txn2 htxn2 p hp
    rw [getTxn_updateTxn_self, hx] at htxn2
    have htxn2e := (Option.some_injective _ htxn2).symm
    rw [htxn2e] at hp
    have hsame : sameTables s (updateTxn s t (fun tx2 =>
        { tx2 with
            write_set := alInsert tkeyLtB (makeTableKey tid k) (Entry.mk w 0) tx2.write_set,
            delete_set := tx2.delete_set.filter (fun k2 => ¬ k2 = makeTableKey tid k) })) :=
      ⟨rfl, rfl⟩
    rw [tableEntryAt_sameTables hsame]
    exact hro txn hx p hp

theorem occDel_readsOk (s : OCCState) (t tid : Nat) (k : String) (h : ¬ t = 0)
    (hro : txnReadsOk s t) : txnReadsOk (occDel s t tid k).2 t := by
  rw [occDel, if_neg h]
  cases hx : getTxn s t with
  | none => exact hro
  | some txn =>
    dsimp only
    cases hw : alFind txn.write_set (makeTableKey tid k) with
    | some e =>
      dsimp only
      intro txn2 htxn2 p hp
      rw [getTxn_updateTxn_self, hx] at htxn2
      have htxn2e := (Option.some_injective _ htxn2).symm
      rw [htxn2e] at hp
      exact hro txn hx p hp
    | none =>
      dsimp only
      cases hr : alFind txn.read_set (makeTableKey tid k) with
      | some e =>
        dsimp only
        intro txn2 htxn2 p hp
        rw [getTxn_updateTxn_self, hx] at htxn2
        have htxn2e := (Option.some_injective _ htxn2).symm
        rw [htxn2e] at hp
        exact hro txn hx p hp
      | none =>
        dsimp only
        cases ht : getTableById s tid with
        | none => exact hro
        | some tbl =>
          dsimp only
          cases he : alFind tbl.data k with
          | none => exact hro
          | some e =>
            dsimp only
            intro txn2 htxn2 p hp
            rw [getTxn_updateTxn_self, hx] at htxn2
            have htxn2e := (Option.some_injective _ htxn2).symm
            rw [htxn2e] at hp
            have hsame : sameTables s (updateTxn s t (fun tx2 =>
                { tx2 with
                    read_set := alInsert tkeyLtB (makeTableKey tid k) e tx2.read_set,
                    delete_set := setInsert (makeTableKey tid k) tx2.delete_set })) :=
              ⟨rfl, rfl⟩
            rw [tableEntryAt_sameTables hsame]
            rcases mem_alInsert tkeyLtB (makeTableKey tid k) e txn.read_set p hp with h1 | h1
            · rw [h1]
              rw [tableEntryAt, makeTableKey, ht]
              exact he
            · exact hro txn hx p h1

theorem occExecOp_readsOk (s : OCCState) (t : Nat) (op : KVTOp) (h : ¬ t = 0)
    (hro : txnReadsOk s t) : txnReadsOk (occExecOp s t op).2 t := by
  rw [occExecOp]
  cases op.op
  · exact hro
  · exact occGet_readsOk s t op.table_id op.key h hro
  · exact occSet_readsOk s t op.table_id op.key op.value h hro
  · exact occDel_readsOk s t op.table_id op.key h hro

theorem occBatchGo_readsOk (t : Nat) (ops : List KVTOp) (s : OCCState) (h : ¬ t = 0)
    (hro : txnReadsOk s t) : txnReadsOk (occBatchGo t ops s).2 t := by
  induction ops generalizing s with
  | nil => exact hro
  | cons op rest ih =>
    rw [occBatchGo]
    exact ih (occExecOp s t op).2 (occExecOp_readsOk s t op h hro)

theorem occGet_txnSome (s : OCCState) (t tid : Nat) (k : String) (h : ¬ t = 0)
    (hs : (getTxn s t).isSome) : (getTxn (occGet s t tid k).2.2 t).isSome := by
  rw [occGet, if_neg h]
  dsimp only
  repeat' split
  all_goals first
    | exact hs
    | (rw [getTxn_updateTxn_self]; simpa using hs)

theorem occSet_txnSome (s : OCCState) (t tid : Nat) (k w : String) (h : ¬ t = 0)
    (hs : (getTxn s t).isSome) : (getTxn (occSet s t tid k w).2 t).isSome := by
  rw [occSet, if_neg h]
  dsimp only
  repeat' split
  all_goals first
    | exact hs
    | (rw [getTxn_updateTxn_self]; simpa using hs)

theorem occDel_txnSome (s : OCCState) (t tid : Nat) (k : String) (h : ¬ t = 0)
    (hs : (getTxn s t).isSome) : (getTxn (occDel s t tid k).2 t).isSome := by
  rw [occDel, if_neg h]
  dsimp only
  repeat' split
  all_goals first
    | exact hs
    | (rw [getTxn_updateTxn_self]; simpa using hs)

theorem occExecOp_txnSome (s : OCCState) (t : Nat) (op : KVTOp) (h : ¬ t = 0)
    (hs : (getTxn s t).isSome) : (getTxn (occExecOp s t op).2 t).isSome := by
  rw [occExecOp]
  cases op.op
  · exact hs
  · exact occGet_txnSome s t op.table_id op.key h hs
  · exact occSet_txnSome s t op.table_id op.key op.value h hs
  · exact occDel_txnSome s t op.table_id op.key h hs

theorem occBatchGo_txnSome (t : Nat) (ops : List KVTOp) (s : OCCState) (h : ¬ t = 0)
    (hs : (getTxn s t).isSome) : (getTxn (occBatchGo t ops s).2 t).isSome := by
  induction ops generalizing s with
  | nil => exact hs
  | cons op rest ih =>
    rw [occBatchGo]
    exact ih (occExecOp s t op).2 (occExecOp_txnSome s t op h hs)

theorem validateReadSet_of_readsOk (s : OCCState) (t : Nat) (txn : Txn)
    (hx : getTxn s t = some txn) (hro : txnReadsOk s t) :
    validateReadSet s txn.read_set = true := by
  rw [validateReadSet, List.all_eq_true]
  intro p hp
  have hte := hro txn hx p hp
  cases ht : getTableById s p.1.1 with
  | none =>
    rw [tableEntryAt, ht] at hte
    exact absurd hte (by simp)
  | some tbl =>
    rw [tableEntryAt, ht] at hte
    dsimp only at hte
    simp [readEntryOk, ht, hte]

theorem occCommit_success (s : OCCState) (t : Nat) (txn : Txn)
    (hx : getTxn s t = some txn) (hro : txnReadsOk s t) :
    (occCommit s t).1 = KVTError.SUCCESS := by
  rw [occCommit, hx]
  dsimp only
  rw [validateReadSet_of_readsOk s t txn hx hro]
  rfl

theorem occStart_getTxn (s : OCCState) :
    getTxn (occStart s).2 (occStart s).1 = some (Txn.mk s.next_tx_id [] [] []) := by
  simp [occStart, getTxn, alFind_alInsert_self]

theorem occStart_readsOk (s : OCCState) : txnReadsOk (occStart s).2 (occStart s).1 := by
  intro txn htxn p hp
  rw [occStart_getTxn] at htxn
  have := (Option.some_injective _ htxn).symm
  rw [this] at hp
  exact absurd hp (List.not_mem_nil p)

theorem occBatchGo_length (t : Nat) (ops : List KVTOp) (s : OCCState) :
    (occBatchGo t ops s).1.length = ops.length := by
  induction ops generalizing s with
  | nil => rfl
  | cons op rest ih =>
    rw [occBatchGo]
    simp [ih]

theorem occBatchExecute_state (s : OCCState) (t : Nat) (ops : List KVTOp) :
    (occBatchExecute s t ops).2.2 = (occBatchGo t ops s).2 := by
  rw [occBatchExecute]
  split <;> rfl

theorem occBatchExecute_results (s : OCCState) (t : Nat) (ops : List KVTOp) :
    (occBatchExecute s t ops).2.1 = (occBatchGo t ops s).1 := by
  rw [occBatchExecute]
  split <;> rfl

/-- C2: For every batch submitted with tx_id = 0 the executor begins a
fresh transaction, executes the ops sequentially in input order
against it (one per-op result per op), classifies the batch SUCCESS
exactly when every op succeeded and BATCH_NOT_FULLY_SUCCESS otherwise;
on any failure it rolls back - every table is left in its pre-batch
state and the per-op errors are returned - and on all-success it
commits; in particular the batch [SET k1=v1, SET k2=v2, DEL k3] with
k3 absent returns BATCH_NOT_FULLY_SUCCESS and leaves k1 and k2 absent
from the table. -/
theorem batch_auto_commit_atomicity :
    (∀ (s : OCCState) (t : Nat) (ops : List KVTOp),
      (occBatchExecute s t ops).2.1.length = ops.length ∧
      ((occBatchExecute s t ops).1 = KVTError.SUCCESS ↔
        ∀ r ∈ (occBatchExecute s t ops).2.1, r.error = KVTError.SUCCESS) ∧
      ((occBatchExecute s t ops).1 = KVTError.SUCCESS ∨
        (occBatchExecute s t ops).1 = KVTError.BATCH_NOT_FULLY_SUCCESS)) ∧
    (∀ (s : OCCState) (ops : List KVTOp), ¬ s.next_tx_id = 0 →
      ¬ (occBatchExecute (occStart s).2 (occStart s).1 ops).1 = KVTError.SUCCESS →
      (tmExecuteBatch s ops 0).1 =
        Except.ok (occBatchExecute (occStart s).2 (occStart s).1 ops).2.1 ∧
      (tmExecuteBatch s ops 0).2.tables = s.tables) ∧
    (∀ (s : OCCState) (ops : List KVTOp), ¬ s.next_tx_id = 0 →
      (occBatchExecute (occStart s).2 (occStart s).1 ops).1 = KVTError.SUCCESS →
      (tmExecuteBatch s ops 0).1 =
        Except.ok (occBatchExecute (occStart s).2 (occStart s).1 ops).2.1) ∧
    ((let s0 : OCCState :=
        { tables := [("T", Table.mk 1 "T" "hash" [])],
          transactions := [], tablename_to_id := [("T", 1)],
          next_table_id := 2, next_tx_id := 1 }
      let ops := [KVTOp.mk KVTOpType.OP_SET 1 "k1" "v1",
                  KVTOp.mk KVTOpType.OP_SET 1 "k2" "v2",
                  KVTOp.mk KVTOpType.OP_DEL 1 "k3" ""]
      (occBatchExecute (occStart s0).2 (occStart s0).1 ops).1 =
          KVTError.BATCH_NOT_FULLY_SUCCESS ∧
      (tmExecuteBatch s0 ops 0).1 =
        Except.ok [KVTOpResult.mk KVTError.SUCCESS "",
                   KVTOpResult.mk KVTError.SUCCESS "",
                   KVTOpResult.mk KVTError.KEY_NOT_FOUND ""] ∧
      tableEntryAt (tmExecuteBatch s0 ops 0).2 (1, "k1") = none ∧
      tableEntryAt (tmExecuteBatch s0 ops 0).2 (1, "k2") = none)) := by
  have part1 : ∀ (s : OCCState) (t : Nat) (ops : List KVTOp),
      (occBatchExecute s t ops).2.1.length = ops.length ∧
      ((occBatchExecute s t ops).1 = KVTError.SUCCESS ↔
        ∀ r ∈ (occBatchExecute s t ops).2.1, r.error = KVTError.SUCCESS) ∧
      ((occBatchExecute s t ops).1 = KVTError.SUCCESS ∨
        (occBatchExecute s t ops).1 = KVTError.BATCH_NOT_FULLY_SUCCESS) := by
    intro s t ops
    by_cases hall : ((occBatchGo t ops s).1.all (fun r => r.error = KVTError.SUCCESS)) = true
    · rw [occBatchExecute]
      rw [if_pos hall]
      refine ⟨occBatchGo_length t ops s, ?_, Or.inl rfl⟩
      rw [List.all_eq_true] at hall
      simp only [decide_eq_true_eq] at hall
      simpa using hall
    · rw [occBatchExecute]
      rw [if_neg hall]
      refine ⟨occBatchGo_length t ops s, ?_, Or.inr rfl⟩
      constructor
      · intro hcon
        exact KVTError.noConfusion hcon
      · intro hforall
        apply absurd _ hall
        rw [List.all_eq_true]
        intro r hr
        simp [hforall r hr]
  have hstart0 : ∀ s : OCCState, ¬ s.next_tx_id = 0 → ¬ (occStart s).1 = 0 := by
    intro s h0
    simpa [occStart] using h0
  have part2 : ∀ (s : OCCState) (ops : List KVTOp), ¬ s.next_tx_id = 0 →
      ¬ (occBatchExecute (occStart s).2 (occStart s).1 ops).1 = KVTError.SUCCESS →
      (tmExecuteBatch s ops 0).1 =
        Except.ok (occBatchExecute (occStart s).2 (occStart s).1 ops).2.1 ∧
      (tmExecuteBatch s ops 0).2.tables = s.tables := by
    intro s ops h0 hf
    have hbnfs : (occBatchExecute (occStart s).2 (occStart s).1 ops).1 =
        KVTError.BATCH_NOT_FULLY_SUCCESS := by
      rcases (part1 (occStart s).2 (occStart s).1 ops).2.2 with h | h
      · exact absurd h hf
      · exact h
    rw [tmExecuteBatch, if_pos rfl]
    dsimp only
    rw [if_neg hf, if_pos hbnfs]
    refine ⟨rfl, ?_⟩
    have h1 : sameTables s (occStart s).2 := occStart_sameTables s
    have h2 : sameTables (occStart s).2 (occBatchGo (occStart s).1 ops (occStart s).2).2 :=
      occBatchGo_sameTables (occStart s).1 ops (occStart s).2 (hstart0 s h0)
    have h3 : sameTables s (occBatchExecute (occStart s).2 (occStart s).1 ops).2.2 := by
      rw [occBatchExecute_state]
      exact sameTables_trans h1 h2
    have h4 : sameTables s
        (occRollback (occBatchExecute (occStart s).2 (occStart s).1 ops).2.2 (occStart s).1).2 :=
      sameTables_trans h3 (occRollback_sameTables _ _)
    exact h4.1
  have part3 : ∀ (s : OCCState) (ops : List KVTOp), ¬ s.next_tx_id = 0 →
      (occBatchExecute (occStart s).2 (occStart s).1 ops).1 = KVTError.SUCCESS →
      (tmExecuteBatch s ops 0).1 =
        Except.ok (occBatchExecute (occStart s).2 (occStart s).1 ops).2.1 := by
    intro s ops h0 hsucc
    have hsome : (getTxn (occBatchExecute (occStart s).2 (occStart s).1 ops).2.2
        (occStart s).1).isSome := by
      rw [occBatchExecute_state]
      apply occBatchGo_txnSome _ _ _ (hstart0 s h0)
      rw [occStart_getTxn]
      rfl
    have hro : txnReadsOk (occBatchExecute (occStart s).2 (occStart s).1 ops).2.2
        (occStart s).1 := by
      rw [occBatchExecute_state]
      exact occBatchGo_readsOk _ _ _ (hstart0 s h0) (occStart_readsOk s)
    obtain ⟨txn2, htxn2⟩ := Option.isSome_iff_exists.mp hsome
    have hcommit : (occCommit (occBatchExecute (occStart s).2 (occStart s).1 ops).2.2
        (occStart s).1).1 = KVTError.SUCCESS :=
      occCommit_success _ _ txn2 htxn2 hro
    rw [tmExecuteBatch, if_pos rfl]
    dsimp only
    rw [if_pos hsucc, if_pos hcommit]
  refine ⟨part1, part2, part3, ?_, ?_, ?_, ?_⟩
  · decide
  · decide
  · decide
  · decide

/-- C2 witness: the batch theorem applied at the concrete seed
scenario state (empty table 1, next transaction id 1) with the batch
[SET k1=v1, SET k2=v2, DEL k3] for the failing parts and [SET k1=v1]
for the all-success part. -/
theorem batch_auto_commit_atomicity_witness :
    ((occBatchExecute
        { tables := [("T", Table.mk 1 "T" "hash" [])],
          transactions := [], tablename_to_id := [("T", 1)],
          next_table_id := 2, next_tx_id := 1 } 1
        [KVTOp.mk KVTOpType.OP_SET 1 "k1" "v1",
         KVTOp.mk KVTOpType.OP_SET 1 "k2" "v2",
         KVTOp.mk KVTOpType.OP_DEL 1 "k3" ""]).2.1.length =
      [KVTOp.mk KVTOpType.OP_SET 1 "k1" "v1",
       KVTOp.mk KVTOpType.OP_SET 1 "k2" "v2",
       KVTOp.mk KVTOpType.OP_DEL 1 "k3" ""].length) ∧
    ((tmExecuteBatch
        { tables := [("T", Table.mk 1 "T" "hash" [])],
          transactions := [], tablename_to_id := [("T", 1)],
          next_table_id := 2, next_tx_id := 1 }
        [KVTOp.mk KVTOpType.OP_SET 1 "k1" "v1",
         KVTOp.mk KVTOpType.OP_SET 1 "k2" "v2",
         KVTOp.mk KVTOpType.OP_DEL 1 "k3" ""] 0).2.tables =
      ({ tables := [("T", Table.mk 1 "T" "hash" [])],
         transactions := [], tablename_to_id := [("T", 1)],
         next_table_id := 2, next_tx_id := 1 } : OCCState).tables) ∧
    ((tmExecuteBatch
        { tables := [("T", Table.mk 1 "T" "hash" [])],
          transactions := [], tablename_to_id := [("T", 1)],
          next_table_id := 2, next_tx_id := 1 }
        [KVTOp.mk KVTOpType.OP_SET 1 "k1" "v1"] 0).1 =
      Except.ok (occBatchExecute
        (occStart { tables := [("T", Table.mk 1 "T" "hash" [])],
                    transactions := [], tablename_to_id := [("T", 1)],
                    next_table_id := 2, next_tx_id := 1 }).2
        (occStart { tables := [("T", Table.mk 1 "T" "hash" [])],
                    transactions := [], tablename_to_id := [("T", 1)],
                    next_table_id := 2, next_tx_id := 1 }).1
        [KVTOp.mk KVTOpType.OP_SET 1 "k1" "v1"]).2.1) :=
  ⟨(batch_auto_commit_atomicity.1
      { tables := [("T", Table.mk 1 "T" "hash" [])],
        transactions := [], tablename_to_id := [("T", 1)],
        next_table_id := 2, next_tx_id := 1 } 1
      [KVTOp.mk KVTOpType.OP_SET 1 "k1" "v1",
       KVTOp.mk KVTOpType.OP_SET 1 "k2" "v2",
       KVTOp.mk KVTOpType.OP_DEL 1 "k3" ""]).1,
   (batch_auto_commit_atomicity.2.1
      { tables := [("T", Table.mk 1 "T" "hash" [])],
        transactions := [], tablename_to_id := [("T", 1)],
        next_table_id := 2, next_tx_id := 1 }
      [KVTOp.mk KVTOpType.OP_SET 1 "k1" "v1",
       KVTOp.mk KVTOpType.OP_SET 1 "k2" "v2",
       KVTOp.mk KVTOpType.OP_DEL 1 "k3" ""] (by decide) (by decide)).2,
   batch_auto_commit_atomicity.2.2.1
      { tables := [("T", Table.mk 1 "T" "hash" [])],
        transactions := [], tablename_to_id := [("T", 1)],
        next_table_id := 2, next_tx_id := 1 }
      [KVTOp.mk KVTOpType.OP_SET 1 "k1" "v1"] (by decide) (by decide)⟩

theorem mem_setInsert_self (k : TKey) (l : List TKey) : k ∈ setInsert k l := by
  rw [setInsert]
  by_cases h : k ∈ l
  · rwa [if_pos h]
  · rw [if_neg h]; exact List.mem_cons_self k l

theorem mem_setInsert_of_mem (k k2 : TKey) (l : List TKey) (h : k2 ∈ l) :
    k2 ∈ setInsert k l := by
  rw [setInsert]
  by_cases h2 : k ∈ l
  · rwa [if_pos h2]
  · rw [if_neg h2]; exact List.mem_cons_of_mem k h

theorem mem_setInsert (k k2 : TKey) (l : List TKey) (h : k2 ∈ setInsert k l) :
    k2 = k ∨ k2 ∈ l := by
  rw [setInsert] at h
  by_cases h2 : k ∈ l
  · rw [if_pos h2] at h; exact Or.inr h
  · rw [if_neg h2] at h
    rcases List.mem_cons.mp h with h3 | h3
    · exact Or.inl h3
    · exact Or.inr h3

theorem getTableEntryById_find (tables : List (String × Table)) (m : List (String × Nat))
    (tid : Nat) (nm : String) (tbl : Table)
    (h : getTableEntryById tables m tid = some (nm, tbl)) : alFind tables nm = some tbl := by
  induction m with
  | nil => exact absurd h (by simp [getTableEntryById])
  | cons p rest ih =>
    obtain ⟨nm0, id0⟩ := p
    rw [getTableEntryById] at h
    by_cases hid : id0 = tid
    · rw [if_pos hid] at h
      cases hf : alFind tables nm0 with
      | none => rw [hf] at h; exact ih h
      | some t0 =>
        rw [hf] at h
        obtain ⟨he1, he2⟩ := Prod.mk.injEq .. ▸ Option.some_injective _ h
        rw [← he1, hf, he2]
    · rw [if_neg hid] at h
      exact ih h

theorem getTableEntryById_alUpdate (tables : List (String × Table)) (m : List (String × Nat))
    (tid : Nat) (nm : String) (tbl : Table) (f : Table → Table)
    (h : getTableEntryById tables m tid = some (nm, tbl)) :
    getTableEntryById (alUpdate nm f tables) m tid = some (nm, f tbl) := by
  induction m with
  | nil => exact absurd h (by simp [getTableEntryById])
  | cons p rest ih =>
    obtain ⟨nm0, id0⟩ := p
    rw [getTableEntryById] at h
    rw [getTableEntryById]
    by_cases hid : id0 = tid
    · rw [if_pos hid] at h ⊢
      cases hf : alFind tables nm0 with
      | none =>
        rw [hf] at h
        have hne : ¬ nm0 = nm := by
          intro he
          rw [he] at hf
          rw [getTableEntryById_find tables rest tid nm tbl h] at hf
          exact Option.noConfusion hf
        rw [alFind_alUpdate_ne nm nm0 f tables hne, hf]
        exact ih h
      | some t0 =>
        rw [hf] at h
        obtain ⟨he1, he2⟩ := Prod.mk.injEq .. ▸ Option.some_injective _ h
        rw [← he1, alFind_alUpdate_self, hf]
        simp [he2]
    · rw [if_neg hid] at h ⊢
      exact ih h

theorem updateTableById_fields (s : OCCState) (tid : Nat) (f : Table → Table) :
    (updateTableById s tid f).tablename_to_id = s.tablename_to_id ∧
    (updateTableById s tid f).transactions = s.transactions ∧
    (updateTableById s tid f).next_tx_id = s.next_tx_id := by
  rw [updateTableById]
  split
  · exact ⟨rfl, rfl, rfl⟩
  · exact ⟨rfl, rfl, rfl⟩

theorem getTableEntryById_updateTableById (s : OCCState) (tid : Nat) (nm : String)
    (tbl : Table) (f : Table → Table)
    (h : getTableEntryById s.tables s.tablename_to_id tid = some (nm, tbl)) :
    getTableEntryById (updateTableById s tid f).tables
      (updateTableById s tid f).tablename_to_id tid = some (nm, f tbl) := by
  rw [updateTableById, h]
  exact getTableEntryById_alUpdate s.tables s.tablename_to_id tid nm tbl f h

theorem applyWrites_install (tid : Nat) (W : List (TKey × Entry)) :
    ∀ (s : OCCState) (nm : String) (tbl : Table),
    getTableEntryById s.tables s.tablename_to_id tid = some (nm, tbl) →
    (∀ p ∈ W, p.1.1 = tid) → NoDupKeys W →
    ∃ tbl2, getTableEntryById (applyWrites s W).tables
        (applyWrites s W).tablename_to_id tid = some (nm, tbl2) ∧
      (∀ ck e, alFind W ck = some e →
        (alFind tbl2.data ck.2).map Entry.data = some e.data) ∧
      (∀ k2 : String, (∀ p ∈ W, ¬ p.1.2 = k2) →
        alFind tbl2.data k2 = alFind tbl.data k2) := by
  induction W with
  | nil =>
    intro s nm tbl hT _hAll _hND
    exact ⟨tbl, hT, by intro ck e h; exact absurd h (by simp [alFind]), fun k2 _ => rfl⟩
  | cons p rest ih =>
    intro s nm tbl hT hAll hND
    have hp1 : p.1.1 = tid := hAll p (List.mem_cons_self p rest)
    have hstep : applyWrites s (p :: rest) = applyWrites (applyWriteStep s p) rest := by
      rw [applyWrites, applyWrites, List.foldl_cons]
    have hndRest : NoDupKeys rest := by
      rw [NoDupKeys, List.map_cons, List.nodup_cons] at hND
      exact hND.2
    have hheadNotRest : p.1 ∉ rest.map Prod.fst := by
      rw [NoDupKeys, List.map_cons, List.nodup_cons] at hND
      exact hND.1
    have hT1 : getTableEntryById (applyWriteStep s p).tables
        (applyWriteStep s p).tablename_to_id tid
        = some (nm, { tbl with data := alInsert strLtB p.1.2 (Entry.mk p.2.data (newVersionFor tbl p.1.2)) tbl.data }) := by
      rw [applyWriteStep, hp1]
      exact getTableEntryById_updateTableById s tid nm tbl _ hT
    obtain ⟨tbl2, hT2, hfind, hpres⟩ := ih (applyWriteStep s p) nm
      { tbl with data := alInsert strLtB p.1.2 (Entry.mk p.2.data (newVersionFor tbl p.1.2)) tbl.data }
      hT1 (fun q hq => hAll q (List.mem_cons_of_mem p hq)) hndRest
    refine ⟨tbl2, by rw [hstep]; exact hT2, ?_, ?_⟩
    · intro ck e hcke
      rw [alFind_cons] at hcke
      by_cases hck : ck = p.1
      · rw [if_pos hck] at hcke
        have he : e = p.2 := Option.some_injective _ hcke.symm
        have hrestne : ∀ q ∈ rest, ¬ q.1.2 = p.1.2 := by
          intro q hq hq2
          apply hheadNotRest
          have hq1 : q.1.1 = tid := hAll q (List.mem_cons_of_mem p hq)
          have hqp : q.1 = p.1 := Prod.ext_iff.mpr ⟨hq1.trans hp1.symm, hq2⟩
          exact hqp ▸ List.mem_map_of_mem Prod.fst hq
        rw [hck, he, hpres p.1.2 hrestne]
        dsimp only
        rw [alFind_alInsert_self]
        rfl
      · rw [if_neg hck] at hcke
        exact hfind ck e hcke
    · intro k2 hk2
      rw [hpres k2 (fun q hq => hk2 q (List.mem_cons_of_mem p hq))]
      dsimp only
      exact alFind_alInsert_ne strLtB p.1.2 k2 _ tbl.data
        (fun he => hk2 p (List.mem_cons_self p rest) he.symm)

theorem alFind_alErase_none {κ α : Type} [DecidableEq κ] (k k2 : κ) (l : List (κ × α))
    (hND : NoDupKeys l) (h : alFind l k2 = none) : alFind (alErase k l) k2 = none := by
  by_cases hk : k2 = k
  · rw [hk]
    exact alFind_alErase_self k l hND
  · rw [alFind_alErase_ne k k2 l hk]
    exact h

theorem applyDeletes_erase (tid : Nat) (ds : List TKey) :
    ∀ (s : OCCState) (nm : String) (tbl : Table),
    getTableEntryById s.tables s.tablename_to_id tid = some (nm, tbl) →
    (∀ ck ∈ ds, ck.1 = tid) → NoDupKeys tbl.data →
    ∃ tbl2, getTableEntryById (applyDeletes s ds).tables
        (applyDeletes s ds).tablename_to_id tid = some (nm, tbl2) ∧
      NoDupKeys tbl2.data ∧
      (∀ ck ∈ ds, alFind tbl2.data ck.2 = none) ∧
      (∀ k2 : String, alFind tbl.data k2 = none → alFind tbl2.data k2 = none) := by
  induction ds with
  | nil =>
    intro s nm tbl hT _hAll hND
    exact ⟨tbl, hT, hND, by intro ck h; exact absurd h (List.not_mem_nil ck), fun _ h => h⟩
  | cons ck0 rest ih =>
    intro s nm tbl hT hAll hND
    have hck0 : ck0.1 = tid := hAll ck0 (List.mem_cons_self ck0 rest)
    have hstep : applyDeletes s (ck0 :: rest) = applyDeletes (applyDeleteStep s ck0) rest := by
      rw [applyDeletes, applyDeletes, List.foldl_cons]
    have hT1 : getTableEntryById (applyDeleteStep s ck0).tables
        (applyDeleteStep s ck0).tablename_to_id tid
        = some (nm, { tbl with data := alErase ck0.2 tbl.data }) := by
      rw [applyDeleteStep, hck0]
      exact getTableEntryById_updateTableById s tid nm tbl _ hT
    obtain ⟨tbl2, hT2, hND2, herased, hnone⟩ := ih (applyDeleteStep s ck0) nm
      { tbl with data := alErase ck0.2 tbl.data }
      hT1 (fun q hq => hAll q (List.mem_cons_of_mem ck0 hq))
      (nodupKeys_alErase ck0.2 tbl.data hND)
    refine ⟨tbl2, by rw [hstep]; exact hT2, hND2, ?_, ?_⟩
    · intro ck hck
      rcases List.mem_cons.mp hck with h1 | h1
      · rw [h1]
        apply hnone
        exact alFind_alErase_self ck0.2 tbl.data hND
      · exact herased ck h1
    · intro k2 hk2
      apply hnone
      exact alFind_alErase_none ck0.2 k2 tbl.data hND hk2

theorem getTableEntryById_sameTables {s s2 : OCCState} (h : sameTables s s2) (tid : Nat) :
    getTableEntryById s2.tables s2.tablename_to_id tid
      = getTableEntryById s.tables s.tablename_to_id tid := by
  rw [h.1, h.2]

theorem stageFold_cons (op : KVTOp) (ops : List KVTOp) (w : List (TKey × Entry)) :
    stageFold (op :: ops) w
      = stageFold ops (alInsert tkeyLtB (op.table_id, op.key) (Entry.mk op.value 0) w) := by
  rw [stageFold, stageFold, List.foldl_cons]

theorem stageFold_find_not_mem (ops : List KVTOp) :
    ∀ (w : List (TKey × Entry)) (ck : TKey),
    (∀ op ∈ ops, ¬ (op.table_id, op.key) = ck) →
    alFind (stageFold ops w) ck = alFind w ck := by
  induction ops with
  | nil => intro w ck _; rfl
  | cons op rest ih =>
    intro w ck hne
    rw [stageFold_cons, ih _ ck (fun q hq => hne q (List.mem_cons_of_mem op hq))]
    exact alFind_alInsert_ne tkeyLtB (op.table_id, op.key) ck _ w
      (fun he => hne op (List.mem_cons_self op rest) he.symm)

theorem stageFold_find_mem (ops : List KVTOp) :
    ∀ (w : List (TKey × Entry)) (op : KVTOp), op ∈ ops →
    (ops.map (fun o => (o.table_id, o.key))).Nodup →
    alFind (stageFold ops w) (op.table_id, op.key) = some (Entry.mk op.value 0) := by
  induction ops with
  | nil => intro w op h _; exact absurd h (List.not_mem_nil op)
  | cons op0 rest ih =>
    intro w op hmem hnd
    rw [List.map_cons, List.nodup_cons] at hnd
    rcases List.mem_cons.mp hmem with h1 | h1
    · subst h1
      have hne : ∀ q ∈ rest, ¬ (q.table_id, q.key) = (op.table_id, op.key) := by
        intro q hq he
        exact hnd.1 (he ▸ List.mem_map_of_mem (fun o => (o.table_id, o.key)) hq)
      rw [stageFold_cons, stageFold_find_not_mem rest _ _ hne]
      exact alFind_alInsert_self tkeyLtB _ _ w
    · rw [stageFold_cons]
      exact ih _ op h1 hnd.2

theorem stageFold_sorted (ops : List KVTOp) :
    ∀ w, KSorted tkeyLtB w → KSorted tkeyLtB (stageFold ops w) := by
  induction ops with
  | nil => intro w h; exact h
  | cons op rest ih =>
    intro w h
    rw [stageFold_cons]
    exact ih _ (alInsert_sorted tkeyLtB tkeyLtB_trans tkeyLtB_conn _ _ w h)

theorem stageFold_mem (ops : List KVTOp) :
    ∀ (w : List (TKey × Entry)) (p : TKey × Entry), p ∈ stageFold ops w →
    (∃ op ∈ ops, p.1 = (op.table_id, op.key)) ∨ p ∈ w := by
  induction ops with
  | nil => intro w p h; exact Or.inr h
  | cons op rest ih =>
    intro w p h
    rw [stageFold_cons] at h
    rcases ih _ p h with h1 | h1
    · obtain ⟨q, hq, he⟩ := h1
      exact Or.inl ⟨q, List.mem_cons_of_mem op hq, he⟩
    · rcases mem_alInsert tkeyLtB _ _ w p h1 with h2 | h2
      · exact Or.inl ⟨op, List.mem_cons_self op rest, by rw [h2]⟩
      · exact Or.inr h2

theorem addEdgeOps_cons (space : Int) (etid : Nat) (e : EdgeIn) (rest : List EdgeIn) :
    addEdgeOps space etid (e :: rest)
      = KVTOp.mk KVTOpType.OP_SET etid (fwdKeyOf space e) e.payload ::
        KVTOp.mk KVTOpType.OP_SET etid (revKeyOf space e) e.payload ::
        addEdgeOps space etid rest := rfl

theorem addEdgeOps_shape (space : Int) (etid : Nat) (edges : List EdgeIn) :
    ∀ op ∈ addEdgeOps space etid edges,
      op.op = KVTOpType.OP_SET ∧ op.table_id = etid := by
  induction edges with
  | nil => intro op h; exact absurd h (List.not_mem_nil op)
  | cons e rest ih =>
    intro op h
    rw [addEdgeOps_cons] at h
    rcases List.mem_cons.mp h with h1 | h1
    · rw [h1]; exact ⟨rfl, rfl⟩
    rcases List.mem_cons.mp h1 with h2 | h2
    · rw [h2]; exact ⟨rfl, rfl⟩
    · exact ih op h2

theorem addEdgeOps_mem_fwd (space : Int) (etid : Nat) (edges : List EdgeIn) (e : EdgeIn)
    (h : e ∈ edges) :
    KVTOp.mk KVTOpType.OP_SET etid (fwdKeyOf space e) e.payload
      ∈ addEdgeOps space etid edges := by
  induction edges with
  | nil => exact absurd h (List.not_mem_nil e)
  | cons e0 rest ih =>
    rw [addEdgeOps_cons]
    rcases List.mem_cons.mp h with h1 | h1
    · rw [h1]; exact List.mem_cons_self _ _
    · exact List.mem_cons_of_mem _ (List.mem_cons_of_mem _ (ih h1))

theorem addEdgeOps_mem_rev (space : Int) (etid : Nat) (edges : List EdgeIn) (e : EdgeIn)
    (h : e ∈ edges) :
    KVTOp.mk KVTOpType.OP_SET etid (revKeyOf space e) e.payload
      ∈ addEdgeOps space etid edges := by
  induction edges with
  | nil => exact absurd h (List.not_mem_nil e)
  | cons e0 rest ih =>
    rw [addEdgeOps_cons]
    rcases List.mem_cons.mp h with h1 | h1
    · rw [h1]; exact List.mem_cons_of_mem _ (List.mem_cons_self _ _)
    · exact List.mem_cons_of_mem _ (List.mem_cons_of_mem _ (ih h1))

theorem deleteEdgeOps_cons (space : Int) (etid : Nat) (e : EdgeKeyIn) (rest : List EdgeKeyIn) :
    deleteEdgeOps space etid (e :: rest)
      = KVTOp.mk KVTOpType.OP_DEL etid (fwdKeyOfK space e) "" ::
        KVTOp.mk KVTOpType.OP_DEL etid (revKeyOfK space e) "" ::
        deleteEdgeOps space etid rest := rfl

theorem deleteEdgeOps_shape (space : Int) (etid : Nat) (edges : List EdgeKeyIn) :
    ∀ op ∈ deleteEdgeOps space etid edges,
      op.op = KVTOpType.OP_DEL ∧ op.table_id = etid := by
  induction edges with
  | nil => intro op h; exact absurd h (List.not_mem_nil op)
  | cons e rest ih =>
    intro op h
    rw [deleteEdgeOps_cons] at h
    rcases List.mem_cons.mp h with h1 | h1
    · rw [h1]; exact ⟨rfl, rfl⟩
    rcases List.mem_cons.mp h1 with h2 | h2
    · rw [h2]; exact ⟨rfl, rfl⟩
    · exact ih op h2

theorem deleteEdgeOps_keys (space : Int) (etid : Nat) (edges : List EdgeKeyIn) :
    ∀ op ∈ deleteEdgeOps space etid edges,
      ∃ e ∈ edges, op.key = fwdKeyOfK space e ∨ op.key = revKeyOfK space e := by
  induction edges with
  | nil => intro op h; exact absurd h (List.not_mem_nil op)
  | cons e rest ih =>
    intro op h
    rw [deleteEdgeOps_cons] at h
    rcases List.mem_cons.mp h with h1 | h1
    · exact ⟨e, List.mem_cons_self e rest, Or.inl (by rw [h1])⟩
    rcases List.mem_cons.mp h1 with h2 | h2
    · exact ⟨e, List.mem_cons_self e rest, Or.inr (by rw [h2])⟩
    · obtain ⟨e2, he2, hor⟩ := ih op h2
      exact ⟨e2, List.mem_cons_of_mem e he2, hor⟩

theorem deleteEdgeOps_mem_fwd (space : Int) (etid : Nat) (edges : List EdgeKeyIn)
    (e : EdgeKeyIn) (h : e ∈ edges) :
    KVTOp.mk KVTOpType.OP_DEL etid (fwdKeyOfK space e) "" ∈ deleteEdgeOps space etid edges := by
  induction edges with
  | nil => exact absurd h (List.not_mem_nil e)
  | cons e0 rest ih =>
    rw [deleteEdgeOps_cons]
    rcases List.mem_cons.mp h with h1 | h1
    · rw [h1]; exact List.mem_cons_self _ _
    · exact List.mem_cons_of_mem _ (List.mem_cons_of_mem _ (ih h1))

theorem deleteEdgeOps_mem_rev (space : Int) (etid : Nat) (edges : List EdgeKeyIn)
    (e : EdgeKeyIn) (h : e ∈ edges) :
    KVTOp.mk KVTOpType.OP_DEL etid (revKeyOfK space e) "" ∈ deleteEdgeOps space etid edges := by
  induction edges with
  | nil => exact absurd h (List.not_mem_nil e)
  | cons e0 rest ih =>
    rw [deleteEdgeOps_cons]
    rcases List.mem_cons.mp h with h1 | h1
    · rw [h1]; exact List.mem_cons_of_mem _ (List.mem_cons_self _ _)
    · exact List.mem_cons_of_mem _ (List.mem_cons_of_mem _ (ih h1))

theorem occSet_txn (s : OCCState) (t tid : Nat) (k v : String) (txn : Txn) (h : ¬ t = 0)
    (hx : getTxn s t = some txn) :
    (occSet s t tid k v).1 = KVTError.SUCCESS ∧
    getTxn (occSet s t tid k v).2 t = some (Txn.mk txn.tx_id txn.read_set
      (alInsert tkeyLtB (tid, k) (Entry.mk v 0) txn.write_set)
      (txn.delete_set.filter (fun k2 => ¬ k2 = (tid, k)))) := by
  rw [occSet, if_neg h, hx]
  dsimp only
  refine ⟨rfl, ?_⟩
  rw [getTxn_updateTxn_self, hx]
  rfl

theorem occDel_txn (s : OCCState) (t tid : Nat) (k : String) (txn : Txn) (nm : String)
    (tbl : Table) (h : ¬ t = 0) (hx : getTxn s t = some txn)
    (hT : getTableEntryById s.tables s.tablename_to_id tid = some (nm, tbl))
    (hws : txn.write_set = [])
    (hpres : (alFind tbl.data k).isSome) :
    (occDel s t tid k).1 = KVTError.SUCCESS ∧
    ∃ txn2, getTxn (occDel s t tid k).2 t = some txn2 ∧
      txn2.write_set = [] ∧ txn2.delete_set = setInsert (tid, k) txn.delete_set := by
  have hwsf : alFind txn.write_set (makeTableKey tid k) = none := by rw [hws]; rfl
  rw [occDel, if_neg h, hx]
  dsimp only
  rw [hwsf]
  dsimp only
  cases hrs : alFind txn.read_set (makeTableKey tid k) with
  | some e =>
    dsimp only
    refine ⟨rfl, Txn.mk txn.tx_id txn.read_set txn.write_set
      (setInsert (makeTableKey tid k) txn.delete_set), ?_, hws, rfl⟩
    rw [getTxn_updateTxn_self, hx]
    rfl
  | none =>
    dsimp only
    have hgt : getTableById s tid = some tbl := by rw [getTableById, hT]; rfl
    rw [hgt]
    dsimp only
    obtain ⟨e, he⟩ := Option.isSome_iff_exists.mp hpres
    rw [he]
    dsimp only
    refine ⟨rfl, Txn.mk txn.tx_id (alInsert tkeyLtB (makeTableKey tid k) e txn.read_set)
      txn.write_set (setInsert (makeTableKey tid k) txn.delete_set), ?_, hws, rfl⟩
    rw [getTxn_updateTxn_self, hx]
    rfl

theorem occBatchGo_sets (t : Nat) (h : ¬ t = 0) (ops : List KVTOp) :
    ∀ (s : OCCState) (txn : Txn),
    (∀ op ∈ ops, op.op = KVTOpType.OP_SET) →
    getTxn s t = some txn → txn.delete_set = [] →
    (∀ r ∈ (occBatchGo t ops s).1, r.error = KVTError.SUCCESS) ∧
    getTxn (occBatchGo t ops s).2 t
      = some (Txn.mk txn.tx_id txn.read_set (stageFold ops txn.write_set) []) := by
  induction ops with
  | nil =>
    intro s txn _hops hx hds
    refine ⟨fun r hr => absurd hr (List.not_mem_nil r), ?_⟩
    rw [occBatchGo]
    dsimp only
    rw [hx, ← hds]
    rfl
  | cons op rest ih =>
    intro s txn hops hx hds
    have hop : op.op = KVTOpType.OP_SET := hops op (List.mem_cons_self op rest)
    have hexec : occExecOp s t op
        = (KVTOpResult.mk (occSet s t op.table_id op.key op.value).1 "",
           (occSet s t op.table_id op.key op.value).2) := by
      rw [occExecOp, hop]
    obtain ⟨herr, hx1⟩ := occSet_txn s t op.table_id op.key op.value txn h hx
    rw [hds, List.filter_nil] at hx1
    have hrest := ih (occSet s t op.table_id op.key op.value).2
      (Txn.mk txn.tx_id txn.read_set
        (alInsert tkeyLtB (op.table_id, op.key) (Entry.mk op.value 0) txn.write_set) [])
      (fun q hq => hops q (List.mem_cons_of_mem op hq)) hx1 rfl
    obtain ⟨hres2, hx2⟩ := hrest
    refine ⟨?_, ?_⟩
    · intro r hr
      rw [occBatchGo] at hr
      dsimp only at hr
      rw [hexec] at hr
      dsimp only at hr
      rcases List.mem_cons.mp hr with h1 | h1
      · rw [h1]; exact herr
      · exact hres2 r h1
    · rw [occBatchGo]
      dsimp only
      rw [hexec]
      dsimp only
      rw [hx2, stageFold_cons]

theorem occBatchGo_dels (t etid : Nat) (h : ¬ t = 0) (nm : String) (tbl : Table)
    (ops : List KVTOp) :
    ∀ (s : OCCState) (txn : Txn),
    (∀ op ∈ ops, op.op = KVTOpType.OP_DEL ∧ op.table_id = etid) →
    getTxn s t = some txn →
    getTableEntryById s.tables s.tablename_to_id etid = some (nm, tbl) →
    txn.write_set = [] →
    (∀ op ∈ ops, (alFind tbl.data op.key).isSome) →
    (∀ r ∈ (occBatchGo t ops s).1, r.error = KVTError.SUCCESS) ∧
    ∃ txn2, getTxn (occBatchGo t ops s).2 t = some txn2 ∧
      txn2.write_set = [] ∧
      (∀ ck ∈ txn.delete_set, ck ∈ txn2.delete_set) ∧
      (∀ op ∈ ops, (etid, op.key) ∈ txn2.delete_set) ∧
      (∀ ck ∈ txn2.delete_set, ck ∈ txn.delete_set ∨ ck.1 = etid) := by
  induction ops with
  | nil =>
    intro s txn _hops hx _hT hws _hpres
    exact ⟨fun r hr => absurd hr (List.not_mem_nil r),
      txn, by rw [occBatchGo]; exact hx, hws,
      fun ck hck => hck,
      fun op hop => absurd hop (List.not_mem_nil op),
      fun ck hck => Or.inl hck⟩
  | cons op rest ih =>
    intro s txn hops hx hT hws hpres
    obtain ⟨hop1, hop2⟩ := hops op (List.mem_cons_self op rest)
    have hexec : occExecOp s t op
        = (KVTOpResult.mk (occDel s t op.table_id op.key).1 "",
           (occDel s t op.table_id op.key).2) := by
      rw [occExecOp, hop1]
    have hdel := occDel_txn s t op.table_id op.key txn nm tbl h hx
      (by rw [hop2]; exact hT) hws (hpres op (List.mem_cons_self op rest))
    obtain ⟨herr, txn1, hx1, hws1, hds1⟩ := hdel
    have hT1 : getTableEntryById (occDel s t op.table_id op.key).2.tables
        (occDel s t op.table_id op.key).2.tablename_to_id etid = some (nm, tbl) := by
      rw [getTableEntryById_sameTables (occDel_sameTables s t op.table_id op.key h) etid]
      exact hT
    have hrest := ih (occDel s t op.table_id op.key).2 txn1
      (fun q hq => hops q (List.mem_cons_of_mem op hq)) hx1 hT1 hws1
      (fun q hq => hpres q (List.mem_cons_of_mem op hq))
    obtain ⟨hres2, txn2, hx2, hws2, hmono2, hkeys2, horig2⟩ := hrest
    refine ⟨?_, txn2, ?_, hws2, ?_, ?_, ?_⟩
    · intro r hr
      rw [occBatchGo] at hr
      dsimp only at hr
      rw [hexec] at hr
      dsimp only at hr
      rcases List.mem_cons.mp hr with h1 | h1
      · rw [h1]; exact herr
      · exact hres2 r h1
    · rw [occBatchGo]
      dsimp only
      rw [hexec]
      dsimp only
      exact hx2
    · intro ck hck
      apply hmono2
      rw [hds1]
      exact mem_setInsert_of_mem (op.table_id, op.key) ck txn.delete_set hck
    · intro q hq
      rcases List.mem_cons.mp hq with h1 | h1
      · rw [h1, ← hop2]
        apply hmono2
        rw [hds1]
        exact mem_setInsert_self (op.table_id, op.key) txn.delete_set
      · exact hkeys2 q h1
    · intro ck hck
      rcases horig2 ck hck with h1 | h1
      · rw [hds1] at h1
        rcases mem_setInsert (op.table_id, op.key) ck txn.delete_set h1 with h2 | h2
        · right; rw [h2]; exact hop2
        · exact Or.inl h2
      · exact Or.inr h1

/-- C7 counterexample: the claim fails at this input.  The edges table
holds only the forward key of edge A-5:0->B (its reverse key is
absent).  deleteEdges on that edge issues DEL forward (succeeds in the
transaction) and DEL reverse (KEY_NOT_FOUND); the batch is classified
BATCH_NOT_FULLY_SUCCESS, so executeBatch rolls the auto-commit
transaction back: the present forward key is NOT removed, while the
client counts KEY_NOT_FOUND as success and reports zero failures. -/
theorem delete_edges_leaves_present_key :
    (let fk := encodeEdgeKey 1 0 (KVal.str "A") 5 0 (KVal.str "B")
     let s0 : OCCState :=
      { tables := [("E", { id := 2, name := "E", partition_method := "hash",
                           data := [(fk, Entry.mk "props" 1)] })],
        transactions := [], tablename_to_id := [("E", 2)],
        next_table_id := 3, next_tx_id := 1 }
     let r := deleteEdges s0 1 2 [EdgeKeyIn.mk (KVal.str "A") 5 0 (KVal.str "B")]
     (r.1, tableEntryAt r.2.1 (2, fk), r.2.2.1, r.2.2.2)) =
    (Except.ok [KVTOpResult.mk KVTError.SUCCESS "",
                KVTOpResult.mk KVTError.KEY_NOT_FOUND ""],
     some (Entry.mk "props" 1), 2, 0) := by decide

/-- C7 (amended): addEdges stages one SET per direction with the same
payload, so when the engine starts transaction ids at a nonzero value,
the edges table exists and the staged composite keys are pairwise
distinct, the batch commits and afterwards both the forward and the
reverse key of every edge map to that edge's payload.  deleteEdges
removes both keys of every edge and reports zero failures PROVIDED both
keys are actually present when the batch runs; a missing key is not the
non-fatal per-key success the spec describes, because the
KEY_NOT_FOUND result makes executeBatch roll the whole auto-commit
transaction back (see the counterexample). -/
theorem edge_symmetry_amended :
    (∀ (s : OCCState) (space : Int) (etid : Nat) (edges : List EdgeIn) (nm : String)
      (tbl : Table),
      ¬ s.next_tx_id = 0 →
      getTableEntryById s.tables s.tablename_to_id etid = some (nm, tbl) →
      ((addEdgeOps space etid edges).map (fun o => (o.table_id, o.key))).Nodup →
      ∃ results tbl2,
        (addEdges s space etid edges).1 = Except.ok results ∧
        (∀ r ∈ results, r.error = KVTError.SUCCESS) ∧
        getTableEntryById (addEdges s space etid edges).2.tables
          (addEdges s space etid edges).2.tablename_to_id etid = some (nm, tbl2) ∧
        ∀ e ∈ edges,
          (alFind tbl2.data (fwdKeyOf space e)).map Entry.data = some e.payload ∧
          (alFind tbl2.data (revKeyOf space e)).map Entry.data = some e.payload) ∧
    (∀ (s : OCCState) (space : Int) (etid : Nat) (edges : List EdgeKeyIn) (nm : String)
      (tbl : Table),
      ¬ s.next_tx_id = 0 →
      getTableEntryById s.tables s.tablename_to_id etid = some (nm, tbl) →
      NoDupKeys tbl.data →
      (∀ e ∈ edges, (alFind tbl.data (fwdKeyOfK space e)).isSome ∧
        (alFind tbl.data (revKeyOfK space e)).isSome) →
      ∃ results tbl2,
        (deleteEdges s space etid edges).1 = Except.ok results ∧
        (∀ r ∈ results, r.error = KVTError.SUCCESS) ∧
        (deleteEdges s space etid edges).2.2.2 = 0 ∧
        getTableEntryById (deleteEdges s space etid edges).2.1.tables
          (deleteEdges s space etid edges).2.1.tablename_to_id etid = some (nm, tbl2) ∧
        ∀ e ∈ edges,
          alFind tbl2.data (fwdKeyOfK space e) = none ∧
          alFind tbl2.data (revKeyOfK space e) = none) := by
  constructor
  · intro s space etid edges nm tbl hnz hT hnd
    have hx0 : getTxn (occStart s).2 (occStart s).1 = some (Txn.mk s.next_tx_id [] [] []) :=
      occStart_getTxn s
    have hshape := addEdgeOps_shape space etid edges
    obtain ⟨hres, hxb⟩ := occBatchGo_sets (occStart s).1 hnz (addEdgeOps space etid edges)
      (occStart s).2 (Txn.mk s.next_tx_id [] [] [])
      (fun op hop => (hshape op hop).1) hx0 rfl
    have hxb2 : getTxn
        (occBatchGo (occStart s).1 (addEdgeOps space etid edges) (occStart s).2).2
        (occStart s).1
        = some (Txn.mk s.next_tx_id [] (stageFold (addEdgeOps space etid edges) []) []) := hxb
    have hall : ((occBatchGo (occStart s).1 (addEdgeOps space etid edges) (occStart s).2).1.all
        (fun r => r.error = KVTError.SUCCESS)) = true := by
      rw [List.all_eq_true]
      intro r hr
      exact decide_eq_true (hres r hr)
    have hbe : occBatchExecute (occStart s).2 (occStart s).1 (addEdgeOps space etid edges)
        = (KVTError.SUCCESS,
           (occBatchGo (occStart s).1 (addEdgeOps space etid edges) (occStart s).2).1,
           (occBatchGo (occStart s).1 (addEdgeOps space etid edges) (occStart s).2).2) := by
      rw [occBatchExecute]
      rw [if_pos hall]
    have hc : occCommit
        (occBatchGo (occStart s).1 (addEdgeOps space etid edges) (occStart s).2).2
        (occStart s).1
        = (KVTError.SUCCESS, "",
           eraseTxn (applyWrites
             (occBatchGo (occStart s).1 (addEdgeOps space etid edges) (occStart s).2).2
             (stageFold (addEdgeOps space etid edges) [])) (occStart s).1) := by
      simp [occCommit, hxb2, validateReadSet, applyDeletes]
    have htm : tmExecuteBatch s (addEdgeOps space etid edges) 0
        = (Except.ok
             (occBatchGo (occStart s).1 (addEdgeOps space etid edges) (occStart s).2).1,
           eraseTxn (applyWrites
             (occBatchGo (occStart s).1 (addEdgeOps space etid edges) (occStart s).2).2
             (stageFold (addEdgeOps space etid edges) [])) (occStart s).1) := by
      rw [tmExecuteBatch, if_pos rfl]
      dsimp only
      rw [hbe]
      dsimp only
      rw [if_pos rfl, hc]
      dsimp only
      rw [if_pos rfl]
    have hsame : sameTables s
        (occBatchGo (occStart s).1 (addEdgeOps space etid edges) (occStart s).2).2 :=
      sameTables_trans (occStart_sameTables s)
        (occBatchGo_sameTables (occStart s).1 (addEdgeOps space etid edges) (occStart s).2 hnz)
    have hTB : getTableEntryById
        (occBatchGo (occStart s).1 (addEdgeOps space etid edges) (occStart s).2).2.tables
        (occBatchGo (occStart s).1 (addEdgeOps space etid edges) (occStart s).2).2.tablename_to_id
        etid = some (nm, tbl) := by
      rw [getTableEntryById_sameTables hsame etid]
      exact hT
    have hndW : NoDupKeys (stageFold (addEdgeOps space etid edges) []) :=
      KSorted_nodupKeys _ (stageFold_sorted (addEdgeOps space etid edges) [] List.Pairwise.nil)
    have hallW : ∀ p ∈ stageFold (addEdgeOps space etid edges) [], p.1.1 = etid := by
      intro p hp
      rcases stageFold_mem (addEdgeOps space etid edges) [] p hp with h1 | h1
      · obtain ⟨q, hq, he⟩ := h1
        rw [he]
        exact (hshape q hq).2
      · exact absurd h1 (List.not_mem_nil p)
    obtain ⟨tbl2, hT2, hfind, _⟩ := applyWrites_install etid
      (stageFold (addEdgeOps space etid edges) [])
      (occBatchGo (occStart s).1 (addEdgeOps space etid edges) (occStart s).2).2
      nm tbl hTB hallW hndW
    refine ⟨(occBatchGo (occStart s).1 (addEdgeOps space etid edges) (occStart s).2).1,
      tbl2, ?_, hres, ?_, ?_⟩
    · rw [addEdges, htm]
    · rw [addEdges, htm]
      dsimp only
      rw [eraseTxn]
      dsimp only
      exact hT2
    · intro e he
      constructor
      · have hfw := stageFold_find_mem (addEdgeOps space etid edges) []
          (KVTOp.mk KVTOpType.OP_SET etid (fwdKeyOf space e) e.payload)
          (addEdgeOps_mem_fwd space etid edges e he) hnd
        exact hfind (etid, fwdKeyOf space e) (Entry.mk e.payload 0) hfw
      · have hrv := stageFold_find_mem (addEdgeOps space etid edges) []
          (KVTOp.mk KVTOpType.OP_SET etid (revKeyOf space e) e.payload)
          (addEdgeOps_mem_rev space etid edges e he) hnd
        exact hfind (etid, revKeyOf space e) (Entry.mk e.payload 0) hrv
  · intro s space etid edges nm tbl hnz hT hND hpres
    have hx0 : getTxn (occStart s).2 (occStart s).1 = some (Txn.mk s.next_tx_id [] [] []) :=
      occStart_getTxn s
    have hshape := deleteEdgeOps_shape space etid edges
    have hkeyorig := deleteEdgeOps_keys space etid edges
    have hT0 : getTableEntryById (occStart s).2.tables (occStart s).2.tablename_to_id etid
        = some (nm, tbl) := by
      rw [getTableEntryById_sameTables (occStart_sameTables s) etid]
      exact hT
    have hkeypres : ∀ op ∈ deleteEdgeOps space etid edges, (alFind tbl.data op.key).isSome := by
      intro op hop
      obtain ⟨e, he, hor⟩ := hkeyorig op hop
      rcases hor with h1 | h1
      · rw [h1]; exact (hpres e he).1
      · rw [h1]; exact (hpres e he).2
    obtain ⟨hres, txn2, hxb, hws2, _hmono, hkeys, horig⟩ :=
      occBatchGo_dels (occStart s).1 etid hnz nm tbl (deleteEdgeOps space etid edges)
        (occStart s).2 (Txn.mk s.next_tx_id [] [] []) hshape hx0 hT0 rfl hkeypres
    have hall : ((occBatchGo (occStart s).1 (deleteEdgeOps space etid edges)
        (occStart s).2).1.all (fun r => r.error = KVTError.SUCCESS)) = true := by
      rw [List.all_eq_true]
      intro r hr
      exact decide_eq_true (hres r hr)
    have hbe : occBatchExecute (occStart s).2 (occStart s).1 (deleteEdgeOps space etid edges)
        = (KVTError.SUCCESS,
           (occBatchGo (occStart s).1 (deleteEdgeOps space etid edges) (occStart s).2).1,
           (occBatchGo (occStart s).1 (deleteEdgeOps space etid edges) (occStart s).2).2) := by
      rw [occBatchExecute]
      rw [if_pos hall]
    have hro : txnReadsOk
        (occBatchGo (occStart s).1 (deleteEdgeOps space etid edges) (occStart s).2).2
        (occStart s).1 :=
      occBatchGo_readsOk (occStart s).1 (deleteEdgeOps space etid edges) (occStart s).2 hnz
        (occStart_readsOk s)
    have hval : validateReadSet
        (occBatchGo (occStart s).1 (deleteEdgeOps space etid edges) (occStart s).2).2
        txn2.read_set = true :=
      validateReadSet_of_readsOk _ (occStart s).1 txn2 hxb hro
    have hc : occCommit
        (occBatchGo (occStart s).1 (deleteEdgeOps space etid edges) (occStart s).2).2
        (occStart s).1
        = (KVTError.SUCCESS, "",
           eraseTxn (applyDeletes
             (occBatchGo (occStart s).1 (deleteEdgeOps space etid edges) (occStart s).2).2
             txn2.delete_set) (occStart s).1) := by
      rw [occCommit, hxb]
      dsimp only
      rw [if_pos hval]
      rw [hws2]
      rfl
    have htm : tmExecuteBatch s (deleteEdgeOps space etid edges) 0
        = (Except.ok
             (occBatchGo (occStart s).1 (deleteEdgeOps space etid edges) (occStart s).2).1,
           eraseTxn (applyDeletes
             (occBatchGo (occStart s).1 (deleteEdgeOps space etid edges) (occStart s).2).2
             txn2.delete_set) (occStart s).1) := by
      rw [tmExecuteBatch, if_pos rfl]
      dsimp only
      rw [hbe]
      dsimp only
      rw [if_pos rfl, hc]
      dsimp only
      rw [if_pos rfl]
    have hsame : sameTables s
        (occBatchGo (occStart s).1 (deleteEdgeOps space etid edges) (occStart s).2).2 :=
      sameTables_trans (occStart_sameTables s)
        (occBatchGo_sameTables (occStart s).1 (deleteEdgeOps space etid edges) (occStart s).2 hnz)
    have hTB : getTableEntryById
        (occBatchGo (occStart s).1 (deleteEdgeOps space etid edges) (occStart s).2).2.tables
        (occBatchGo (occStart s).1 (deleteEdgeOps space etid edges)
          (occStart s).2).2.tablename_to_id
        etid = some (nm, tbl) := by
      rw [getTableEntryById_sameTables hsame etid]
      exact hT
    have hdsAll : ∀ ck ∈ txn2.delete_set, ck.1 = etid := by
      intro ck hck
      rcases horig ck hck with h1 | h1
      · exact absurd h1 (List.not_mem_nil ck)
      · exact h1
    obtain ⟨tbl2, hT2, _hND2, herase, _⟩ := applyDeletes_erase etid txn2.delete_set
      (occBatchGo (occStart s).1 (deleteEdgeOps space etid edges) (occStart s).2).2
      nm tbl hTB hdsAll hND
    have hcnt : (occBatchGo (occStart s).1 (deleteEdgeOps space etid edges)
        (occStart s).2).1.countP
        (fun rr => rr.error = KVTError.SUCCESS ∨ rr.error = KVTError.KEY_NOT_FOUND)
        = (occBatchGo (occStart s).1 (deleteEdgeOps space etid edges) (occStart s).2).1.length := by
      rw [List.countP_eq_length]
      intro r hr
      exact decide_eq_true (Or.inl (hres r hr))
    have hde : deleteEdges s space etid edges
        = (Except.ok
             (occBatchGo (occStart s).1 (deleteEdgeOps space etid edges) (occStart s).2).1,
           eraseTxn (applyDeletes
             (occBatchGo (occStart s).1 (deleteEdgeOps space etid edges) (occStart s).2).2
             txn2.delete_set) (occStart s).1,
           (occBatchGo (occStart s).1 (deleteEdgeOps space etid edges) (occStart s).2).1.length,
           0) := by
      rw [deleteEdges]
      dsimp only
      rw [htm]
      dsimp only
      rw [hcnt, Nat.sub_self]
    refine ⟨(occBatchGo (occStart s).1 (deleteEdgeOps space etid edges) (occStart s).2).1,
      tbl2, ?_, hres, ?_, ?_, ?_⟩
    · rw [hde]
    · rw [hde]
    · rw [hde]
      dsimp only
      rw [eraseTxn]
      dsimp only
      exact hT2
    · intro e he
      exact ⟨herase (etid, fwdKeyOfK space e)
          (hkeys _ (deleteEdgeOps_mem_fwd space etid edges e he)),
        herase (etid, revKeyOfK space e)
          (hkeys _ (deleteEdgeOps_mem_rev space etid edges e he))⟩

theorem edge_symmetry_amended_witness :
    (∃ results tbl2,
      (addEdges egwState 1 5 [egwEdge]).1 = Except.ok results ∧
      (∀ r ∈ results, r.error = KVTError.SUCCESS) ∧
      getTableEntryById (addEdges egwState 1 5 [egwEdge]).2.tables
        (addEdges egwState 1 5 [egwEdge]).2.tablename_to_id 5 = some ("edges", tbl2) ∧
      ∀ e ∈ [egwEdge],
        (alFind tbl2.data (fwdKeyOf 1 e)).map Entry.data = some e.payload ∧
        (alFind tbl2.data (revKeyOf 1 e)).map Entry.data = some e.payload) ∧
    (∃ results tbl2,
      (deleteEdges egwDState 1 5 [egwKey]).1 = Except.ok results ∧
      (∀ r ∈ results, r.error = KVTError.SUCCESS) ∧
      (deleteEdges egwDState 1 5 [egwKey]).2.2.2 = 0 ∧
      getTableEntryById (deleteEdges egwDState 1 5 [egwKey]).2.1.tables
        (deleteEdges egwDState 1 5 [egwKey]).2.1.tablename_to_id 5 = some ("edges", tbl2) ∧
      ∀ e ∈ [egwKey],
        alFind tbl2.data (fwdKeyOfK 1 e) = none ∧
        alFind tbl2.data (revKeyOfK 1 e) = none) :=
  ⟨edge_symmetry_amended.1 egwState 1 5 [egwEdge] "edges" egwTable (by decide) (by decide)
      (by decide),
   edge_symmetry_amended.2 egwDState 1 5 [egwKey] "edges" egwDTable (by decide) (by decide)
      (by unfold NoDupKeys; decide) (by decide)⟩

end KVT
